import Mathlib

/-!
Verification of the ghprmerge readiness-evaluation engine and run orchestrator.

This file shallowly embeds the Go code of `internal/merger/merger.go`
(the current variant: the one using `Config.SkipRebase` and the
`ready to merge` action) together with the data model of
`internal/github/client.go` and `internal/output/output.go`.

The GitHub transport is modelled as a pure oracle (`Client`): every query
function returns `Except String` (an error message or a value) and every
mutating call returns `Option String` (`none` on success, `some err` on
failure), matching the Go `Client` interface.  Each embedded merger
function returns its result together with the list of collaborator
operations (`Op`) it performed, in call order, so that statements about
which API calls a code path makes can be proved.

Console/terminal rendering, JSON serialization and the run metadata
timestamps are plumbing outside the decision logic (spec section 1) and are
not embedded; they do not influence any result or trace below.
-/

namespace Ghprmerge

/-- Repository, from `internal/github/client.go`. -/
structure Repository where
  name : String
  fullName : String
  defaultBranch : String
  archived : Bool
deriving DecidableEq, Repr

/-- PullRequest, from `internal/github/client.go` (fields consumed by the merger). -/
structure PullRequest where
  number : Nat
  title : String
  url : String
  headBranch : String
  baseBranch : String
  draft : Bool
  headSHA : String
deriving DecidableEq, Repr

/-- CheckStatus, from `internal/github/client.go`. -/
structure CheckStatus where
  allPassing : Bool
  pending : Bool
  noChecks : Bool
  details : String
deriving DecidableEq, Repr

/-- BranchStatus, from `internal/github/client.go`.  `behindBy` is a Go `int`. -/
structure BranchStatus where
  upToDate : Bool
  behindBy : Int
  hasConflict : Bool
deriving DecidableEq, Repr

/-- One collaborator API operation, recorded in call order. -/
inductive Op where
  | listRepositories (org : String)
  | listPullRequests (owner repo base : String)
  | getCheckStatus (owner repo ref : String)
  | getBranchStatus (owner repo : String) (prNumber : Nat)
  | updateBranch (owner repo : String) (prNumber : Nat)
  | postRebaseComment (owner repo : String) (prNumber : Nat)
  | mergePullRequest (owner repo : String) (prNumber : Nat)
deriving DecidableEq, Repr

/-- An operation is mutating when it is one of the three write calls of the
`Client` interface (`UpdateBranch`, `PostRebaseComment`, `MergePullRequest`). -/
def Op.isMutating : Op → Bool
  | .updateBranch _ _ _ => true
  | .postRebaseComment _ _ _ => true
  | .mergePullRequest _ _ _ => true
  | _ => false

/-- The repository a given operation addresses (`none` for the org-level listing). -/
def Op.targetRepo : Op → Option String
  | .listRepositories _ => none
  | .listPullRequests _ r _ => some r
  | .getCheckStatus _ r _ => some r
  | .getBranchStatus _ r _ => some r
  | .updateBranch _ r _ => some r
  | .postRebaseComment _ r _ => some r
  | .mergePullRequest _ r _ => some r

/-- Pure oracle for the GitHub `Client` interface of `internal/github/client.go`.
Query calls yield `Except String` values; mutating calls yield `none` on
success and `some errText` on failure. -/
structure Client where
  listRepositoriesFn : String → Except String (List Repository)
  listPullRequestsFn : String → String → String → Except String (List PullRequest)
  getCheckStatusFn : String → String → String → Except String CheckStatus
  getBranchStatusFn : String → String → Nat → Except String BranchStatus
  updateBranchFn : String → String → Nat → Option String
  postRebaseCommentFn : String → String → Nat → Option String
  mergePullRequestFn : String → String → Nat → Option String

/-- Configuration, from `internal/config/config.go` (fields consumed by the
merger's decision logic; output-formatting flags are not embedded). -/
structure Config where
  org : String
  sourceBranch : String
  rebase : Bool
  merge : Bool
  skipRebase : Bool
  repos : List String
  repoLimit : Int
  confirm : Bool
deriving Repr

/-- Whether `sub` occurs at the start of `s` (Go `strings.HasPrefix` on rune lists). -/
def listStarts : List Char → List Char → Bool
  | _, [] => true
  | [], _ :: _ => false
  | a :: as, b :: bs => a == b && listStarts as bs

/-- Whether `pat` occurs somewhere inside the list (helper for Go `strings.Contains`). -/
def listSub (pat : List Char) : List Char → Bool
  | [] => listStarts [] pat
  | c :: rest => listStarts (c :: rest) pat || listSub pat rest

/-- Go `strings.Contains s pat`. -/
def strContains (s pat : String) : Bool := listSub pat.data s.data

/-- `IsDependabotBranch` from `internal/github/client.go`. -/
def isDependabotBranch (branchName : String) : Bool :=
  listStarts branchName.data ("dependabot/".data)

/-- `MatchesBranchPattern` from `internal/github/client.go` (substring match). -/
def matchesBranchPattern (branchName pat : String) : Bool :=
  strContains branchName pat

/-- The characters before the first slash (all of them when there is none). -/
def takeUntilSlash : List Char → List Char
  | [] => []
  | c :: rest => if c == '/' then [] else c :: takeUntilSlash rest

/-- Go `strings.Split(fullName, "/")[0]`. -/
def ownerOf (fullName : String) : String := String.mk (takeUntilSlash fullName.data)

/-! Action and skip-reason string constants from `internal/output/output.go`
(`Action` and `SkipReason` are string types in Go). -/

def actionWouldMerge : String := "would merge"
def actionWouldRebase : String := "would rebase"
def actionReadyMerge : String := "ready to merge"
def actionMerged : String := "merged"
def actionMergeFailed : String := "merge failed"
def actionRebased : String := "rebased"
def actionRebaseFailed : String := "rebase failed"
def actionSkipConflict : String := "skip: merge conflict"
def actionSkipChecksFailing : String := "skip: checks failing"
def actionSkipChecksPending : String := "skip: checks pending"
def actionSkipBranchBehind : String := "skip: branch behind default"
def actionSkipAPIError : String := "skip: API error"

def reasonConflict : String := "merge conflict"
def reasonChecksFailing : String := "checks failing"
def reasonChecksPending : String := "checks pending"
def reasonBranchBehind : String := "branch behind default"
def reasonAPIError : String := "API error"

/-- Go `strings.HasPrefix(string(pr.Action), "skip:")`, as used by `updateSummary`. -/
def isSkipAction (a : String) : Bool := listStarts a.data ("skip:".data)

/-- PullRequestResult, from `internal/output/output.go`. -/
structure PullRequestResult where
  number : Nat := 0
  url : String := ""
  headBranch : String := ""
  title : String := ""
  action : String := ""
  reason : String := ""
  skipReason : String := ""
deriving DecidableEq, Repr

/-- RepositoryResult, from `internal/output/output.go`. -/
structure RepositoryResult where
  name : String := ""
  fullName : String := ""
  defaultBranch : String := ""
  pullRequests : List PullRequestResult := []
  skipped : Bool := false
  skipReason : String := ""
deriving DecidableEq, Repr

/-- RunSummary, from `internal/output/output.go`.  The Go
`map[string]int` histogram is modelled as a total function with default 0. -/
structure RunSummary where
  reposProcessed : Nat := 0
  reposSkipped : Nat := 0
  candidatesFound : Nat := 0
  mergedSuccess : Nat := 0
  mergeFailed : Nat := 0
  rebasedSuccess : Nat := 0
  rebaseFailed : Nat := 0
  wouldMerge : Nat := 0
  wouldRebase : Nat := 0
  readyToMerge : Nat := 0
  skipped : Nat := 0
  skippedByReason : String → Nat := fun _ => 0

/-- RunResult, from `internal/output/output.go` (metadata timestamps omitted). -/
structure RunResult where
  repositories : List RepositoryResult := []
  summary : RunSummary := {}

/-- `evaluatePullRequest` from `internal/merger/merger.go` (scan-only
evaluation, no side effects beyond the two status queries). -/
def evaluatePullRequest (c : Client) (cfg : Config) (owner : String)
    (repo : Repository) (pr : PullRequest) : PullRequestResult × List Op :=
  let base : PullRequestResult :=
    { number := pr.number, url := pr.url, headBranch := pr.headBranch, title := pr.title }
  let t0 : List Op := [Op.getCheckStatus owner repo.name pr.headSHA]
  match c.getCheckStatusFn owner repo.name pr.headSHA with
  | Except.error e =>
    ({ base with action := actionSkipAPIError,
                 reason := "failed to get check status: " ++ e,
                 skipReason := reasonAPIError }, t0)
  | Except.ok checkStatus =>
    -- When in rebase-only mode, passing checks are not required.
    let rebaseOnly := cfg.rebase && !cfg.merge
    let checksState := if checkStatus.noChecks then "no checks configured" else "all checks passing"
    if !checkStatus.noChecks && (checkStatus.pending && !rebaseOnly) then
      ({ base with action := actionSkipChecksPending,
                   reason := checkStatus.details,
                   skipReason := reasonChecksPending }, t0)
    else if !checkStatus.noChecks && (!checkStatus.allPassing && !rebaseOnly) then
      ({ base with action := actionSkipChecksFailing,
                   reason := checkStatus.details,
                   skipReason := reasonChecksFailing }, t0)
    else
      let t1 := t0 ++ [Op.getBranchStatus owner repo.name pr.number]
      match c.getBranchStatusFn owner repo.name pr.number with
      | Except.error e =>
        ({ base with action := actionSkipAPIError,
                     reason := "failed to get branch status: " ++ e,
                     skipReason := reasonAPIError }, t1)
      | Except.ok branchStatus =>
        if branchStatus.hasConflict then
          ({ base with action := actionSkipConflict,
                       reason := "pull request has merge conflicts",
                       skipReason := reasonConflict }, t1)
        else if !branchStatus.upToDate then
          if cfg.skipRebase && cfg.merge then
            ({ base with action := actionWouldMerge,
                         reason := checksState ++ ", would merge (branch is " ++
                           toString branchStatus.behindBy ++ " commits behind, rebase skipped)" }, t1)
          else if !cfg.rebase then
            ({ base with action := actionSkipBranchBehind,
                         reason := "branch is " ++ toString branchStatus.behindBy ++
                           " commits behind base (use --rebase to update)",
                         skipReason := reasonBranchBehind }, t1)
          else if isDependabotBranch pr.headBranch then
            ({ base with action := actionWouldRebase,
                         reason := "would post @dependabot rebase comment (" ++
                           toString branchStatus.behindBy ++ " commits behind)" }, t1)
          else
            ({ base with action := actionWouldRebase,
                         reason := "would update branch via API (" ++
                           toString branchStatus.behindBy ++ " commits behind)" }, t1)
        else if cfg.merge then
          ({ base with action := actionWouldMerge,
                       reason := checksState ++ ", branch up to date" }, t1)
        else
          ({ base with action := actionReadyMerge,
                       reason := checksState ++ ", branch up to date (use --merge to merge)" }, t1)

/-- `handleOutdatedBranch` from `internal/merger/merger.go` (single-phase run,
branch behind base). -/
def handleOutdatedBranch (c : Client) (cfg : Config) (owner : String)
    (repo : Repository) (pr : PullRequest) (branchStatus : BranchStatus)
    (checksState : String) : PullRequestResult × List Op :=
  let base : PullRequestResult :=
    { number := pr.number, url := pr.url, headBranch := pr.headBranch, title := pr.title }
  if cfg.skipRebase && cfg.merge then
    -- Branch is behind but the rebase requirement is skipped: merge directly.
    let t : List Op := [Op.mergePullRequest owner repo.name pr.number]
    match c.mergePullRequestFn owner repo.name pr.number with
    | some e => ({ base with action := actionMergeFailed, reason := "merge failed: " ++ e }, t)
    | none =>
      ({ base with action := actionMerged,
                   reason := "successfully merged (" ++ checksState ++ "; branch was " ++
                     toString branchStatus.behindBy ++ " commits behind, rebase skipped)" }, t)
  else if !cfg.rebase then
    ({ base with action := actionSkipBranchBehind,
                 reason := "branch is " ++ toString branchStatus.behindBy ++
                   " commits behind base (use --rebase to update)",
                 skipReason := reasonBranchBehind }, [])
  else if isDependabotBranch pr.headBranch then
    let t : List Op := [Op.postRebaseComment owner repo.name pr.number]
    match c.postRebaseCommentFn owner repo.name pr.number with
    | some e => ({ base with action := actionRebaseFailed, reason := "failed to post rebase comment: " ++ e }, t)
    | none =>
      ({ base with action := actionRebased,
                   reason := "posted @dependabot rebase comment (" ++
                     toString branchStatus.behindBy ++ " commits behind)" }, t)
  else
    let t : List Op := [Op.updateBranch owner repo.name pr.number]
    match c.updateBranchFn owner repo.name pr.number with
    | some e => ({ base with action := actionRebaseFailed, reason := "failed to update branch: " ++ e }, t)
    | none =>
      ({ base with action := actionRebased,
                   reason := "branch update requested via API (" ++
                     toString branchStatus.behindBy ++ " commits behind)" }, t)

/-- `handleMergeReady` from `internal/merger/merger.go` (single-phase run,
all conditions met). -/
def handleMergeReady (c : Client) (cfg : Config) (owner : String)
    (repo : Repository) (pr : PullRequest) (checksState : String) :
    PullRequestResult × List Op :=
  let base : PullRequestResult :=
    { number := pr.number, url := pr.url, headBranch := pr.headBranch, title := pr.title }
  if !cfg.merge then
    ({ base with action := actionReadyMerge,
                 reason := checksState ++ ", branch up to date (use --merge to merge)" }, [])
  else
    let t : List Op := [Op.mergePullRequest owner repo.name pr.number]
    match c.mergePullRequestFn owner repo.name pr.number with
    | some e => ({ base with action := actionMergeFailed, reason := "merge failed: " ++ e }, t)
    | none => ({ base with action := actionMerged, reason := "successfully merged (" ++ checksState ++ ")" }, t)

/-- `processPullRequest` from `internal/merger/merger.go` (single-phase run:
evaluation immediately followed by any mutating action). -/
def processPullRequest (c : Client) (cfg : Config) (owner : String)
    (repo : Repository) (pr : PullRequest) : PullRequestResult × List Op :=
  let base : PullRequestResult :=
    { number := pr.number, url := pr.url, headBranch := pr.headBranch, title := pr.title }
  let t0 : List Op := [Op.getCheckStatus owner repo.name pr.headSHA]
  match c.getCheckStatusFn owner repo.name pr.headSHA with
  | Except.error e =>
    ({ base with action := actionSkipAPIError,
                 reason := "failed to get check status: " ++ e,
                 skipReason := reasonAPIError }, t0)
  | Except.ok checkStatus =>
    let rebaseOnly := cfg.rebase && !cfg.merge
    let checksState := if checkStatus.noChecks then "no checks configured" else "all checks passing"
    if !checkStatus.noChecks && (checkStatus.pending && !rebaseOnly) then
      ({ base with action := actionSkipChecksPending,
                   reason := checkStatus.details,
                   skipReason := reasonChecksPending }, t0)
    else if !checkStatus.noChecks && (!checkStatus.allPassing && !rebaseOnly) then
      ({ base with action := actionSkipChecksFailing,
                   reason := checkStatus.details,
                   skipReason := reasonChecksFailing }, t0)
    else
      let t1 := t0 ++ [Op.getBranchStatus owner repo.name pr.number]
      match c.getBranchStatusFn owner repo.name pr.number with
      | Except.error e =>
        ({ base with action := actionSkipAPIError,
                     reason := "failed to get branch status: " ++ e,
                     skipReason := reasonAPIError }, t1)
      | Except.ok branchStatus =>
        if branchStatus.hasConflict then
          ({ base with action := actionSkipConflict,
                       reason := "pull request has merge conflicts",
                       skipReason := reasonConflict }, t1)
        else if !branchStatus.upToDate then
          ((handleOutdatedBranch c cfg owner repo pr branchStatus checksState).1,
           t1 ++ (handleOutdatedBranch c cfg owner repo pr branchStatus checksState).2)
        else
          ((handleMergeReady c cfg owner repo pr checksState).1,
           t1 ++ (handleMergeReady c cfg owner repo pr checksState).2)

/-- `discoverRepositories` from `internal/merger/merger.go` (current variant:
keeps every listed repository, restricted to the allow-list when one was
given; note it applies no `archived` filter). -/
def discoverRepositories (c : Client) (cfg : Config) :
    Except String (List Repository) × List Op :=
  (match c.listRepositoriesFn cfg.org with
   | Except.error e => Except.error e
   | Except.ok allRepos =>
     Except.ok (allRepos.filter fun repo =>
       cfg.repos.isEmpty || cfg.repos.contains repo.name),
   [Op.listRepositories cfg.org])

/-- `discoverPullRequests` from `internal/merger/merger.go` (candidate filter:
non-draft, head branch matches the pattern, targets the default branch). -/
def discoverPullRequests (c : Client) (cfg : Config) (repo : Repository) :
    Except String (List PullRequest) × List Op :=
  let owner := ownerOf repo.fullName
  (match c.listPullRequestsFn owner repo.name repo.defaultBranch with
   | Except.error e => Except.error e
   | Except.ok allPRs =>
     Except.ok (allPRs.filter fun pr =>
       !pr.draft && matchesBranchPattern pr.headBranch cfg.sourceBranch &&
         pr.baseBranch == repo.defaultBranch),
   [Op.listPullRequests owner repo.name repo.defaultBranch])

/-- `processRepositoryScanOnly` from `internal/merger/merger.go`
(confirm-mode scan: evaluation only). -/
def processRepositoryScanOnly (c : Client) (cfg : Config) (repo : Repository) :
    RepositoryResult × List Op :=
  let owner := ownerOf repo.fullName
  let base : RepositoryResult :=
    { name := repo.name, fullName := repo.fullName,
      defaultBranch := repo.defaultBranch, pullRequests := [] }
  let t0 := (discoverPullRequests c cfg repo).2
  match (discoverPullRequests c cfg repo).1 with
  | Except.error e =>
    ({ base with skipped := true, skipReason := "API error: " ++ e }, t0)
  | Except.ok prs =>
    ({ base with pullRequests := prs.map fun pr => (evaluatePullRequest c cfg owner repo pr).1 },
     t0 ++ prs.flatMap fun pr => (evaluatePullRequest c cfg owner repo pr).2)

/-- `processRepository` from `internal/merger/merger.go` (single-phase run). -/
def processRepository (c : Client) (cfg : Config) (repo : Repository) :
    RepositoryResult × List Op :=
  let owner := ownerOf repo.fullName
  let base : RepositoryResult :=
    { name := repo.name, fullName := repo.fullName,
      defaultBranch := repo.defaultBranch, pullRequests := [] }
  let t0 := (discoverPullRequests c cfg repo).2
  match (discoverPullRequests c cfg repo).1 with
  | Except.error e =>
    ({ base with skipped := true, skipReason := "API error: " ++ e }, t0)
  | Except.ok prs =>
    ({ base with pullRequests := prs.map fun pr => (processPullRequest c cfg owner repo pr).1 },
     t0 ++ prs.flatMap fun pr => (processPullRequest c cfg owner repo pr).2)

/-- `updateSummary` from `internal/merger/merger.go` (current variant,
including the `ready to merge` counter and the `skip:`-prefixed fallthrough). -/
def updateSummary (summary : RunSummary) (pr : PullRequestResult) : RunSummary :=
  if pr.action == actionMerged then { summary with mergedSuccess := summary.mergedSuccess + 1 }
  else if pr.action == actionMergeFailed then { summary with mergeFailed := summary.mergeFailed + 1 }
  else if pr.action == actionRebased then { summary with rebasedSuccess := summary.rebasedSuccess + 1 }
  else if pr.action == actionRebaseFailed then { summary with rebaseFailed := summary.rebaseFailed + 1 }
  else if pr.action == actionWouldMerge then { summary with wouldMerge := summary.wouldMerge + 1 }
  else if pr.action == actionWouldRebase then { summary with wouldRebase := summary.wouldRebase + 1 }
  else if pr.action == actionReadyMerge then { summary with readyToMerge := summary.readyToMerge + 1 }
  else if isSkipAction pr.action then
    let s1 := { summary with skipped := summary.skipped + 1 }
    if pr.skipReason != "" then
      { s1 with skippedByReason := fun k =>
          if k == pr.skipReason then s1.skippedByReason k + 1 else s1.skippedByReason k }
    else s1
  else summary

/-- The repository-level skip entry built by `Run` when the repo limit is reached. -/
def limitSkipEntry (repo : Repository) : RepositoryResult :=
  { name := repo.name, fullName := repo.fullName, defaultBranch := repo.defaultBranch,
    pullRequests := [], skipped := true, skipReason := "repo limit reached" }

/-- The per-repository dispatch in `Run`: scan-only in confirm mode,
otherwise the single-phase processing. -/
def processRepoDispatch (c : Client) (cfg : Config) (repo : Repository) :
    RepositoryResult × List Op :=
  if cfg.confirm then processRepositoryScanOnly c cfg repo else processRepository c cfg repo

/-- Loop state of `Run`: accumulated repository results, summary, and the
count of non-skipped repositories processed so far (Go `repoCount`). -/
structure RunState where
  repositories : List RepositoryResult := []
  summary : RunSummary := {}
  repoCount : Int := 0

/-- The per-PR summary update inside `Run`: `CandidatesFound++` followed by
`updateSummary`. -/
def runSummaryStep (s : RunSummary) (pr : PullRequestResult) : RunSummary :=
  updateSummary { s with candidatesFound := s.candidatesFound + 1 } pr

/-- One iteration of the repository loop of `Run` from `internal/merger/merger.go`. -/
def runRepoStep (c : Client) (cfg : Config) (st : RunState) (repo : Repository) :
    RunState × List Op :=
  if 0 < cfg.repoLimit ∧ cfg.repoLimit ≤ st.repoCount then
    ({ st with repositories := st.repositories ++ [limitSkipEntry repo],
               summary := { st.summary with reposSkipped := st.summary.reposSkipped + 1 } }, [])
  else
    let repoResult := (processRepoDispatch c cfg repo).1
    let t := (processRepoDispatch c cfg repo).2
    let st1 :=
      if repoResult.skipped then
        { st with repositories := st.repositories ++ [repoResult],
                  summary := { st.summary with reposSkipped := st.summary.reposSkipped + 1 } }
      else
        { st with repositories := st.repositories ++ [repoResult],
                  summary := { st.summary with reposProcessed := st.summary.reposProcessed + 1 },
                  repoCount := st.repoCount + 1 }
    ({ st1 with summary := repoResult.pullRequests.foldl runSummaryStep st1.summary }, t)

/-- The repository loop of `Run`, strictly sequential. -/
def runLoop (c : Client) (cfg : Config) : List Repository → RunState → RunState × List Op
  | [], st => (st, [])
  | repo :: rest, st =>
    ((runLoop c cfg rest (runRepoStep c cfg st repo).1).1,
     (runRepoStep c cfg st repo).2 ++ (runLoop c cfg rest (runRepoStep c cfg st repo).1).2)

/-- `Run` from `internal/merger/merger.go`: discovery, the sequential
repository loop with the repo-limit ceiling, and summary aggregation. -/
def Run (c : Client) (cfg : Config) : Except String RunResult × List Op :=
  let t := (discoverRepositories c cfg).2
  match (discoverRepositories c cfg).1 with
  | Except.error e => (Except.error ("failed to discover repositories: " ++ e), t)
  | Except.ok repos =>
    (Except.ok { repositories := (runLoop c cfg repos {}).1.repositories,
                 summary := (runLoop c cfg repos {}).1.summary },
     t ++ (runLoop c cfg repos {}).2)

/-- `executeRebase` from `internal/merger/merger.go` (confirm-mode execution). -/
def executeRebase (c : Client) (owner repoName : String) (pr : PullRequestResult) :
    PullRequestResult × List Op :=
  if isDependabotBranch pr.headBranch then
    match c.postRebaseCommentFn owner repoName pr.number with
    | some e =>
      ({ pr with action := actionRebaseFailed, reason := "failed to post rebase comment: " ++ e },
       [Op.postRebaseComment owner repoName pr.number])
    | none =>
      ({ pr with action := actionRebased, reason := "posted @dependabot rebase comment" },
       [Op.postRebaseComment owner repoName pr.number])
  else
    match c.updateBranchFn owner repoName pr.number with
    | some e =>
      ({ pr with action := actionRebaseFailed, reason := "failed to update branch: " ++ e },
       [Op.updateBranch owner repoName pr.number])
    | none =>
      ({ pr with action := actionRebased, reason := "branch update requested via API" },
       [Op.updateBranch owner repoName pr.number])

/-- `executeMerge` from `internal/merger/merger.go` (confirm-mode execution). -/
def executeMerge (c : Client) (owner repoName : String) (pr : PullRequestResult) :
    PullRequestResult × List Op :=
  match c.mergePullRequestFn owner repoName pr.number with
  | some e =>
    ({ pr with action := actionMergeFailed, reason := "merge failed: " ++ e },
     [Op.mergePullRequest owner repoName pr.number])
  | none =>
    ({ pr with action := actionMerged, reason := "successfully merged" },
     [Op.mergePullRequest owner repoName pr.number])

/-- The per-PR action dispatch of `RunWithActions`: only planned
`would rebase` / `would merge` entries are executed, everything else is
left untouched. -/
def runActionStep (c : Client) (owner repoName : String) (pr : PullRequestResult) :
    PullRequestResult × List Op :=
  if pr.action == actionWouldRebase then executeRebase c owner repoName pr
  else if pr.action == actionWouldMerge then executeMerge c owner repoName pr
  else (pr, [])

/-- The per-repository pass of `RunWithActions`: skipped repositories are
passed over (`continue`), others have each PR run through `runActionStep`. -/
def execRepoActions (c : Client) (repo : RepositoryResult) : RepositoryResult × List Op :=
  if repo.skipped then (repo, [])
  else
    let owner := ownerOf repo.fullName
    ({ repo with pullRequests := repo.pullRequests.map fun pr => (runActionStep c owner repo.name pr).1 },
     repo.pullRequests.flatMap fun pr => (runActionStep c owner repo.name pr).2)

/-- `RunWithActions` from `internal/merger/merger.go`: replays a scanned
`RunResult` through the executor.  It resets the action counters and the
skip histogram (but not `ReadyToMerge`), executes pending actions, and
re-aggregates `updateSummary` over the PRs of non-skipped repositories.
The Go function always returns a nil error. -/
def RunWithActions (c : Client) (scan : RunResult) : RunResult × List Op :=
  let s0 : RunSummary :=
    { scan.summary with mergedSuccess := 0, mergeFailed := 0, rebasedSuccess := 0,
                        rebaseFailed := 0, wouldMerge := 0, wouldRebase := 0,
                        skipped := 0, skippedByReason := fun _ => 0 }
  let repos := scan.repositories.map fun repo => (execRepoActions c repo).1
  let trace := scan.repositories.flatMap fun repo => (execRepoActions c repo).2
  let summary := repos.foldl
    (fun s repo => if repo.skipped then s else repo.pullRequests.foldl updateSummary s) s0
  ({ repositories := repos, summary := summary }, trace)

/-! Concrete fixtures used by witness theorems. -/

/-- A sample repository. -/
def wRepo : Repository :=
  { name := "repo1", fullName := "org1/repo1", defaultBranch := "main", archived := false }

/-- A sample Dependabot pull request targeting the default branch. -/
def wPR : PullRequest :=
  { number := 7, title := "Bump dep", url := "https://example.test/pr/7",
    headBranch := "dependabot/go/dep-1.2.3", baseBranch := "main", draft := false,
    headSHA := "abc123" }

/-- A sample non-Dependabot pull request. -/
def wPR2 : PullRequest :=
  { number := 8, title := "Feature", url := "https://example.test/pr/8",
    headBranch := "feature/dependabot-x", baseBranch := "main", draft := false,
    headSHA := "def456" }

/-- A client whose PR has a merge conflict (checks all passing). -/
def wConflictClient : Client :=
  { listRepositoriesFn := fun _ => Except.ok [wRepo]
    listPullRequestsFn := fun _ _ _ => Except.ok [wPR]
    getCheckStatusFn := fun _ _ _ =>
      Except.ok { allPassing := true, pending := false, noChecks := false, details := "all checks passing" }
    getBranchStatusFn := fun _ _ _ =>
      Except.ok { upToDate := false, behindBy := 3, hasConflict := true }
    updateBranchFn := fun _ _ _ => none
    postRebaseCommentFn := fun _ _ _ => none
    mergePullRequestFn := fun _ _ _ => none }

/-- A client for a clean, behind branch with passing checks and no conflict. -/
def wBehindClient : Client :=
  { listRepositoriesFn := fun _ => Except.ok [wRepo]
    listPullRequestsFn := fun _ _ _ => Except.ok [wPR]
    getCheckStatusFn := fun _ _ _ =>
      Except.ok { allPassing := true, pending := false, noChecks := false, details := "all checks passing" }
    getBranchStatusFn := fun _ _ _ =>
      Except.ok { upToDate := false, behindBy := 5, hasConflict := false }
    updateBranchFn := fun _ _ _ => none
    postRebaseCommentFn := fun _ _ _ => none
    mergePullRequestFn := fun _ _ _ => none }

/-- A client whose checks are pending, branch behind, no conflict. -/
def wPendingClient : Client :=
  { listRepositoriesFn := fun _ => Except.ok [wRepo]
    listPullRequestsFn := fun _ _ _ => Except.ok [wPR]
    getCheckStatusFn := fun _ _ _ =>
      Except.ok { allPassing := false, pending := true, noChecks := false,
                  details := "check build is in_progress" }
    getBranchStatusFn := fun _ _ _ =>
      Except.ok { upToDate := false, behindBy := 2, hasConflict := false }
    updateBranchFn := fun _ _ _ => none
    postRebaseCommentFn := fun _ _ _ => none
    mergePullRequestFn := fun _ _ _ => none }

/-- A client whose checks are pending and whose branch is up to date. -/
def wPendingUpToDateClient : Client :=
  { listRepositoriesFn := fun _ => Except.ok [wRepo]
    listPullRequestsFn := fun _ _ _ => Except.ok [wPR]
    getCheckStatusFn := fun _ _ _ =>
      Except.ok { allPassing := false, pending := true, noChecks := false,
                  details := "check build is in_progress" }
    getBranchStatusFn := fun _ _ _ =>
      Except.ok { upToDate := true, behindBy := 0, hasConflict := false }
    updateBranchFn := fun _ _ _ => none
    postRebaseCommentFn := fun _ _ _ => none
    mergePullRequestFn := fun _ _ _ => none }

/-- Skip-rebase merge configuration. -/
def wCfgSkipRebase : Config :=
  { org := "org1", sourceBranch := "dependabot/", rebase := false, merge := true,
    skipRebase := true, repos := [], repoLimit := 0, confirm := false }

/-- Rebase-only configuration. -/
def wCfgRebaseOnly : Config :=
  { org := "org1", sourceBranch := "dependabot/", rebase := true, merge := false,
    skipRebase := false, repos := [], repoLimit := 0, confirm := false }

/-- A client all of whose mutating calls fail with the text "boom". -/
def wFailClient : Client :=
  { listRepositoriesFn := fun _ => Except.ok [wRepo]
    listPullRequestsFn := fun _ _ _ => Except.ok [wPR, wPR2]
    getCheckStatusFn := fun _ _ _ =>
      Except.ok { allPassing := true, pending := false, noChecks := false, details := "all checks passing" }
    getBranchStatusFn := fun _ _ _ =>
      Except.ok { upToDate := true, behindBy := 0, hasConflict := false }
    updateBranchFn := fun _ _ _ => some "boom"
    postRebaseCommentFn := fun _ _ _ => some "boom"
    mergePullRequestFn := fun _ _ _ => some "boom" }

/-- Merge-only configuration. -/
def wCfgMerge : Config :=
  { org := "org1", sourceBranch := "dependabot/", rebase := false, merge := true,
    skipRebase := false, repos := [], repoLimit := 0, confirm := false }

/-- Merge-only configuration with confirm mode on. -/
def wCfgMergeConfirm : Config :=
  { org := "org1", sourceBranch := "dependabot/", rebase := false, merge := true,
    skipRebase := false, repos := [], repoLimit := 0, confirm := true }

/-- Rebase-only configuration with confirm mode on. -/
def wCfgRebaseOnlyConfirm : Config :=
  { org := "org1", sourceBranch := "dependabot/", rebase := true, merge := false,
    skipRebase := false, repos := [], repoLimit := 0, confirm := true }

/-- An archived repository, as the live org listing returns it
(`RealClient.ListRepositories` keeps archived repositories, with the flag set). -/
def wArchivedRepo : Repository :=
  { name := "archived-repo", fullName := "org1/archived-repo", defaultBranch := "main",
    archived := true }

/-- A client whose org listing contains an archived repository, mirroring the
live listing semantics of `RealClient.ListRepositories`. -/
def wArchClient : Client :=
  { listRepositoriesFn := fun _ => Except.ok [wRepo, wArchivedRepo]
    listPullRequestsFn := fun _ _ _ => Except.ok []
    getCheckStatusFn := fun _ _ _ => Except.error "unused"
    getBranchStatusFn := fun _ _ _ => Except.error "unused"
    updateBranchFn := fun _ _ _ => none
    postRebaseCommentFn := fun _ _ _ => none
    mergePullRequestFn := fun _ _ _ => none }

/-- Analysis-only configuration (no mode flags). -/
def wCfgAnalysis : Config :=
  { org := "org1", sourceBranch := "dependabot/", rebase := false, merge := false,
    skipRebase := false, repos := [], repoLimit := 0, confirm := false }

/-- Three same-shaped repositories, for the repo-limit fixture. -/
def wRepoA : Repository :=
  { name := "repoA", fullName := "org1/repoA", defaultBranch := "main", archived := false }
def wRepoB : Repository :=
  { name := "repoB", fullName := "org1/repoB", defaultBranch := "main", archived := false }
def wRepoC : Repository :=
  { name := "repoC", fullName := "org1/repoC", defaultBranch := "main", archived := false }

/-- A client listing three repositories with no open PRs. -/
def wThreeRepoClient : Client :=
  { listRepositoriesFn := fun _ => Except.ok [wRepoA, wRepoB, wRepoC]
    listPullRequestsFn := fun _ _ _ => Except.ok []
    getCheckStatusFn := fun _ _ _ => Except.error "unused"
    getBranchStatusFn := fun _ _ _ => Except.error "unused"
    updateBranchFn := fun _ _ _ => none
    postRebaseCommentFn := fun _ _ _ => none
    mergePullRequestFn := fun _ _ _ => none }

/-- Analysis-only configuration with a repo limit of one. -/
def wCfgLimitOne : Config :=
  { org := "org1", sourceBranch := "dependabot/", rebase := false, merge := false,
    skipRebase := false, repos := [], repoLimit := 1, confirm := false }

/-- A second sample Dependabot pull request, behind its base. -/
def wPR3 : PullRequest :=
  { number := 9, title := "Bump other", url := "https://example.test/pr/9",
    headBranch := "dependabot/docker/base-2.0", baseBranch := "main", draft := false,
    headSHA := "fed789" }

/-- A client with one up-to-date passing PR and one behind passing PR, used
for the confirm-mode scan/execute fixtures. -/
def wTwoPRClient : Client :=
  { listRepositoriesFn := fun _ => Except.ok [wRepo]
    listPullRequestsFn := fun _ _ _ => Except.ok [wPR, wPR3]
    getCheckStatusFn := fun _ _ _ =>
      Except.ok { allPassing := true, pending := false, noChecks := false, details := "all checks passing" }
    getBranchStatusFn := fun _ _ n =>
      if n == 7 then Except.ok { upToDate := true, behindBy := 0, hasConflict := false }
      else Except.ok { upToDate := false, behindBy := 4, hasConflict := false }
    updateBranchFn := fun _ _ _ => none
    postRebaseCommentFn := fun _ _ _ => none
    mergePullRequestFn := fun _ _ _ => none }

/-- A concrete scan result: one processed repository with a ready-to-merge
entry and a pending rebase entry, plus one skipped repository. -/
def wScanResult : RunResult :=
  { repositories :=
      [ { name := "repo1", fullName := "org1/repo1", defaultBranch := "main",
          pullRequests :=
            [ { number := 7, url := "https://example.test/pr/7",
                headBranch := "dependabot/go/dep-1.2.3", title := "Bump dep",
                action := actionReadyMerge,
                reason := "all checks passing, branch up to date (use --merge to merge)" },
              { number := 9, url := "https://example.test/pr/9",
                headBranch := "dependabot/docker/base-2.0", title := "Bump other",
                action := actionWouldRebase,
                reason := "would post @dependabot rebase comment (4 commits behind)" } ] },
        { name := "repoB", fullName := "org1/repoB", defaultBranch := "main",
          pullRequests := [], skipped := true, skipReason := "API error: listing failed" } ],
    summary := { reposProcessed := 1, reposSkipped := 1, candidatesFound := 2,
                 wouldRebase := 1, readyToMerge := 1 } }

/-- Terminal (already-executed) actions: merged / merge failed / rebased /
rebase failed. -/
def isTerminalAction (a : String) : Bool :=
  a == actionMerged || a == actionMergeFailed || a == actionRebased || a == actionRebaseFailed

/-- The PR-listing call for this repository succeeds. -/
def listingOk (c : Client) (repo : Repository) : Prop :=
  ∃ prs, c.listPullRequestsFn (ownerOf repo.fullName) repo.name repo.defaultBranch = Except.ok prs

/-- Frame relation between a scanned PR entry and its replayed counterpart:
entries that were not pending actions are unchanged, pending merges terminate
as merged / merge failed, pending rebases as rebased / rebase failed. -/
def PrFrame (a b : PullRequestResult) : Prop :=
  ((a.action ≠ actionWouldMerge ∧ a.action ≠ actionWouldRebase) → b = a) ∧
  (a.action = actionWouldMerge → b.action = actionMerged ∨ b.action = actionMergeFailed) ∧
  (a.action = actionWouldRebase → b.action = actionRebased ∨ b.action = actionRebaseFailed)

/-- Frame relation between a scanned repository entry and its replayed
counterpart: skipped repositories are untouched, repository-level fields are
preserved, and the PR entries are related pointwise by `PrFrame`. -/
def RepoFrame (a b : RepositoryResult) : Prop :=
  (a.skipped = true → b = a) ∧
  b.name = a.name ∧ b.fullName = a.fullName ∧ b.defaultBranch = a.defaultBranch ∧
  b.skipped = a.skipped ∧ b.skipReason = a.skipReason ∧
  List.Forall₂ PrFrame a.pullRequests b.pullRequests

/-- All PR entries of a run result, in order. -/
def allPRResults (res : RunResult) : List PullRequestResult :=
  res.repositories.flatMap RepositoryResult.pullRequests

/-- Number of PR entries bearing a given action. -/
def countAction (res : RunResult) (a : String) : Nat :=
  (allPRResults res).countP fun prr => prr.action == a

/-- Number of PR entries bearing a `skip:`-prefixed action. -/
def countSkipEntries (res : RunResult) : Nat :=
  (allPRResults res).countP fun prr => isSkipAction prr.action

/-- Number of skip entries whose categorized skip reason is `r`. -/
def countSkipWithReason (res : RunResult) (r : String) : Nat :=
  (allPRResults res).countP fun prr => isSkipAction prr.action && prr.skipReason == r

/-- The per-outcome summary counters of `res` agree with the PR entries it
contains, and the skip histogram counts each skip entry once under its
categorized reason. -/
def countersMatch (res : RunResult) : Prop :=
  res.summary.mergedSuccess = countAction res actionMerged ∧
  res.summary.mergeFailed = countAction res actionMergeFailed ∧
  res.summary.rebasedSuccess = countAction res actionRebased ∧
  res.summary.rebaseFailed = countAction res actionRebaseFailed ∧
  res.summary.wouldMerge = countAction res actionWouldMerge ∧
  res.summary.wouldRebase = countAction res actionWouldRebase ∧
  res.summary.skipped = countSkipEntries res ∧
  ∀ r, r ≠ "" → res.summary.skippedByReason r = countSkipWithReason res r

/-! ## C1: merge conflicts always yield Skip(Conflict) -/

/-- C1: whenever both status retrievals succeed, the branch has a merge
conflict, and the checks gate does not already skip the PR, both the
scan-only evaluation (`evaluatePullRequest`) and the single-phase processing
(`processPullRequest`) produce the conflict skip, for every combination of
the rebase / merge / skip-rebase mode flags. -/
theorem conflict_always_skips
    (c : Client) (cfg : Config) (owner : String) (repo : Repository) (pr : PullRequest)
    (cs : CheckStatus) (bs : BranchStatus)
    (hcs : c.getCheckStatusFn owner repo.name pr.headSHA = Except.ok cs)
    (hbs : c.getBranchStatusFn owner repo.name pr.number = Except.ok bs)
    (hconf : bs.hasConflict = true)
    (hnotblock : cs.noChecks = true ∨
      ((cs.pending = true → (cfg.rebase && !cfg.merge) = true) ∧
       (cs.allPassing = false → (cfg.rebase && !cfg.merge) = true))) :
    ((evaluatePullRequest c cfg owner repo pr).1.action = actionSkipConflict ∧
     (evaluatePullRequest c cfg owner repo pr).1.skipReason = reasonConflict) ∧
    ((processPullRequest c cfg owner repo pr).1.action = actionSkipConflict ∧
     (processPullRequest c cfg owner repo pr).1.skipReason = reasonConflict) := by
  rcases hnotblock with h | ⟨hp, ha⟩
  · simp [evaluatePullRequest, processPullRequest, hcs, hbs, hconf, h]
  · by_cases hro : (cfg.rebase && !cfg.merge) = true
    · simp [evaluatePullRequest, processPullRequest, hcs, hbs, hconf, hro]
    · have hpf : cs.pending = false := by
        cases hcp : cs.pending
        · rfl
        · exact absurd (hp hcp) hro
      have hat : cs.allPassing = true := by
        cases hca : cs.allPassing
        · exact absurd (ha hca) hro
        · rfl
      simp [evaluatePullRequest, processPullRequest, hcs, hbs, hconf, hpf, hat]

/-- Witness for `conflict_always_skips` at a concrete conflicted PR under
skip-rebase merge mode. -/
theorem conflict_always_skips_witness :
    ((evaluatePullRequest wConflictClient wCfgSkipRebase "org1" wRepo wPR).1.action = actionSkipConflict ∧
     (evaluatePullRequest wConflictClient wCfgSkipRebase "org1" wRepo wPR).1.skipReason = reasonConflict) ∧
    ((processPullRequest wConflictClient wCfgSkipRebase "org1" wRepo wPR).1.action = actionSkipConflict ∧
     (processPullRequest wConflictClient wCfgSkipRebase "org1" wRepo wPR).1.skipReason = reasonConflict) :=
  conflict_always_skips wConflictClient wCfgSkipRebase "org1" wRepo wPR
    { allPassing := true, pending := false, noChecks := false, details := "all checks passing" }
    { upToDate := false, behindBy := 3, hasConflict := true }
    rfl rfl rfl (Or.inr ⟨fun h => absurd h (by decide), fun h => absurd h (by decide)⟩)

/-! ## C4: skip-rebase merges a behind branch -/

/-- C4: with skip-rebase and merge enabled (rebase disabled), passing checks,
no conflict, and a behind branch, the scan evaluation yields `would merge`
with a reason recording the behind-count and that the rebase was skipped;
the single-phase processing merges directly (`merged`, or `merge failed` if
the collaborator call errors), and executing the scanned entry also
terminates as `merged` or `merge failed`. -/
theorem skip_rebase_merges_behind_branch
    (c : Client) (cfg : Config) (owner : String) (repo : Repository) (pr : PullRequest)
    (cs : CheckStatus) (bs : BranchStatus)
    (hsr : cfg.skipRebase = true) (hm : cfg.merge = true) (hr : cfg.rebase = false)
    (hcs : c.getCheckStatusFn owner repo.name pr.headSHA = Except.ok cs)
    (hpass : cs.allPassing = true) (hpend : cs.pending = false) (hnc : cs.noChecks = false)
    (hbs : c.getBranchStatusFn owner repo.name pr.number = Except.ok bs)
    (hconf : bs.hasConflict = false) (hbehind : bs.upToDate = false) :
    (evaluatePullRequest c cfg owner repo pr).1.action = actionWouldMerge ∧
    (evaluatePullRequest c cfg owner repo pr).1.reason =
      "all checks passing, would merge (branch is " ++ toString bs.behindBy ++
        " commits behind, rebase skipped)" ∧
    ((processPullRequest c cfg owner repo pr).1.action = actionMerged ∨
     (processPullRequest c cfg owner repo pr).1.action = actionMergeFailed) ∧
    (c.mergePullRequestFn owner repo.name pr.number = none →
      (processPullRequest c cfg owner repo pr).1.action = actionMerged ∧
      (processPullRequest c cfg owner repo pr).1.reason =
        "successfully merged (all checks passing; branch was " ++ toString bs.behindBy ++
          " commits behind, rebase skipped)") ∧
    ((executeMerge c owner repo.name (evaluatePullRequest c cfg owner repo pr).1).1.action = actionMerged ∨
     (executeMerge c owner repo.name (evaluatePullRequest c cfg owner repo pr).1).1.action = actionMergeFailed) := by
  cases hmp : c.mergePullRequestFn owner repo.name pr.number with
  | none =>
    simp [evaluatePullRequest, processPullRequest, handleOutdatedBranch, executeMerge,
      hsr, hm, hr, hcs, hpass, hpend, hnc, hbs, hconf, hbehind, hmp]
  | some e =>
    simp [evaluatePullRequest, processPullRequest, handleOutdatedBranch, executeMerge,
      hsr, hm, hr, hcs, hpass, hpend, hnc, hbs, hconf, hbehind, hmp]

/-- Witness for `skip_rebase_merges_behind_branch` at a concrete behind PR. -/
theorem skip_rebase_merges_behind_branch_witness :
    (evaluatePullRequest wBehindClient wCfgSkipRebase "org1" wRepo wPR).1.action = actionWouldMerge ∧
    (evaluatePullRequest wBehindClient wCfgSkipRebase "org1" wRepo wPR).1.reason =
      "all checks passing, would merge (branch is " ++ toString (5 : Int) ++
        " commits behind, rebase skipped)" ∧
    ((processPullRequest wBehindClient wCfgSkipRebase "org1" wRepo wPR).1.action = actionMerged ∨
     (processPullRequest wBehindClient wCfgSkipRebase "org1" wRepo wPR).1.action = actionMergeFailed) ∧
    (wBehindClient.mergePullRequestFn "org1" wRepo.name wPR.number = none →
      (processPullRequest wBehindClient wCfgSkipRebase "org1" wRepo wPR).1.action = actionMerged ∧
      (processPullRequest wBehindClient wCfgSkipRebase "org1" wRepo wPR).1.reason =
        "successfully merged (all checks passing; branch was " ++ toString (5 : Int) ++
          " commits behind, rebase skipped)") ∧
    ((executeMerge wBehindClient "org1" wRepo.name
        (evaluatePullRequest wBehindClient wCfgSkipRebase "org1" wRepo wPR).1).1.action = actionMerged ∨
     (executeMerge wBehindClient "org1" wRepo.name
        (evaluatePullRequest wBehindClient wCfgSkipRebase "org1" wRepo wPR).1).1.action = actionMergeFailed) :=
  skip_rebase_merges_behind_branch wBehindClient wCfgSkipRebase "org1" wRepo wPR
    { allPassing := true, pending := false, noChecks := false, details := "all checks passing" }
    { upToDate := false, behindBy := 5, hasConflict := false }
    rfl rfl rfl rfl rfl rfl rfl rfl rfl rfl

/-! ## C5: rebase-only mode tolerates pending or failing checks -/

/-- C5: in rebase-only mode, a PR with pending (or failing) checks, no
conflict, and a behind branch evaluates to `would rebase`, not to a
checks-pending or checks-failing skip. -/
theorem rebase_only_tolerates_pending_checks
    (c : Client) (cfg : Config) (owner : String) (repo : Repository) (pr : PullRequest)
    (cs : CheckStatus) (bs : BranchStatus)
    (hr : cfg.rebase = true) (hm : cfg.merge = false)
    (hcs : c.getCheckStatusFn owner repo.name pr.headSHA = Except.ok cs)
    (hnc : cs.noChecks = false)
    (hblocked : cs.pending = true ∨ cs.allPassing = false)
    (hbs : c.getBranchStatusFn owner repo.name pr.number = Except.ok bs)
    (hconf : bs.hasConflict = false) (hbehind : bs.upToDate = false) :
    (evaluatePullRequest c cfg owner repo pr).1.action = actionWouldRebase ∧
    (evaluatePullRequest c cfg owner repo pr).1.action ≠ actionSkipChecksPending ∧
    (evaluatePullRequest c cfg owner repo pr).1.action ≠ actionSkipChecksFailing := by
  have h : (evaluatePullRequest c cfg owner repo pr).1.action = actionWouldRebase := by
    cases hdep : isDependabotBranch pr.headBranch with
    | true => simp [evaluatePullRequest, hr, hm, hcs, hnc, hbs, hconf, hbehind, hdep]
    | false => simp [evaluatePullRequest, hr, hm, hcs, hnc, hbs, hconf, hbehind, hdep]
  exact ⟨h, by rw [h]; decide, by rw [h]; decide⟩

/-- Witness for `rebase_only_tolerates_pending_checks` at a concrete
pending-checks PR. -/
theorem rebase_only_tolerates_pending_checks_witness :
    (evaluatePullRequest wPendingClient wCfgRebaseOnly "org1" wRepo wPR).1.action = actionWouldRebase ∧
    (evaluatePullRequest wPendingClient wCfgRebaseOnly "org1" wRepo wPR).1.action ≠ actionSkipChecksPending ∧
    (evaluatePullRequest wPendingClient wCfgRebaseOnly "org1" wRepo wPR).1.action ≠ actionSkipChecksFailing :=
  rebase_only_tolerates_pending_checks wPendingClient wCfgRebaseOnly "org1" wRepo wPR
    { allPassing := false, pending := true, noChecks := false, details := "check build is in_progress" }
    { upToDate := false, behindBy := 2, hasConflict := false }
    rfl rfl rfl rfl (Or.inl rfl) rfl rfl rfl

/-! ## C10: rebase-only scan reports pending-check up-to-date PRs as ready -/

/-- C10: in rebase-only mode, a PR whose checks are pending or failing (with
checks configured), whose branch status is clean and up to date, is reported
by the scan evaluation as `ready to merge` with a reason claiming all checks
are passing. -/
theorem rebase_only_pending_up_to_date_reports_ready
    (c : Client) (cfg : Config) (owner : String) (repo : Repository) (pr : PullRequest)
    (cs : CheckStatus) (bs : BranchStatus)
    (hr : cfg.rebase = true) (hm : cfg.merge = false)
    (hcs : c.getCheckStatusFn owner repo.name pr.headSHA = Except.ok cs)
    (hnc : cs.noChecks = false)
    (hblocked : cs.pending = true ∨ cs.allPassing = false)
    (hbs : c.getBranchStatusFn owner repo.name pr.number = Except.ok bs)
    (hconf : bs.hasConflict = false) (hup : bs.upToDate = true) :
    (evaluatePullRequest c cfg owner repo pr).1.action = actionReadyMerge ∧
    (evaluatePullRequest c cfg owner repo pr).1.reason =
      "all checks passing, branch up to date (use --merge to merge)" := by
  simp [evaluatePullRequest, hr, hm, hcs, hnc, hbs, hconf, hup]

/-- Witness for `rebase_only_pending_up_to_date_reports_ready` at a concrete
pending-checks, up-to-date PR. -/
theorem rebase_only_pending_up_to_date_reports_ready_witness :
    (evaluatePullRequest wPendingUpToDateClient wCfgRebaseOnly "org1" wRepo wPR).1.action = actionReadyMerge ∧
    (evaluatePullRequest wPendingUpToDateClient wCfgRebaseOnly "org1" wRepo wPR).1.reason =
      "all checks passing, branch up to date (use --merge to merge)" :=
  rebase_only_pending_up_to_date_reports_ready wPendingUpToDateClient wCfgRebaseOnly "org1" wRepo wPR
    { allPassing := false, pending := true, noChecks := false, details := "check build is in_progress" }
    { upToDate := true, behindBy := 0, hasConflict := false }
    rfl rfl rfl rfl (Or.inl rfl) rfl rfl rfl

/-! ## C8: mutation errors become terminal failure outcomes and never abort -/

/-- C8: every failing mutating call turns the PR outcome into its matching
terminal failure variant carrying the collaborator error text — in the
single-phase handlers and in the confirm-mode executors — and a mutation
error never makes `Run` return an error (`Run` can only fail at repository
discovery; `RunWithActions` is error-free by construction). -/
theorem mutation_errors_isolated
    (c : Client) (cfg : Config) (owner : String) (repo : Repository) (pr : PullRequest)
    (bs : BranchStatus) (checksState : String) (e : String) :
    (cfg.merge = true →
      c.mergePullRequestFn owner repo.name pr.number = some e →
      (handleMergeReady c cfg owner repo pr checksState).1.action = actionMergeFailed ∧
      (handleMergeReady c cfg owner repo pr checksState).1.reason = "merge failed: " ++ e) ∧
    (cfg.skipRebase = true → cfg.merge = true →
      c.mergePullRequestFn owner repo.name pr.number = some e →
      (handleOutdatedBranch c cfg owner repo pr bs checksState).1.action = actionMergeFailed ∧
      (handleOutdatedBranch c cfg owner repo pr bs checksState).1.reason = "merge failed: " ++ e) ∧
    ((cfg.skipRebase && cfg.merge) = false → cfg.rebase = true →
      isDependabotBranch pr.headBranch = true →
      c.postRebaseCommentFn owner repo.name pr.number = some e →
      (handleOutdatedBranch c cfg owner repo pr bs checksState).1.action = actionRebaseFailed ∧
      (handleOutdatedBranch c cfg owner repo pr bs checksState).1.reason =
        "failed to post rebase comment: " ++ e) ∧
    ((cfg.skipRebase && cfg.merge) = false → cfg.rebase = true →
      isDependabotBranch pr.headBranch = false →
      c.updateBranchFn owner repo.name pr.number = some e →
      (handleOutdatedBranch c cfg owner repo pr bs checksState).1.action = actionRebaseFailed ∧
      (handleOutdatedBranch c cfg owner repo pr bs checksState).1.reason =
        "failed to update branch: " ++ e) ∧
    (∀ prr : PullRequestResult,
      c.mergePullRequestFn owner repo.name prr.number = some e →
      (executeMerge c owner repo.name prr).1.action = actionMergeFailed ∧
      (executeMerge c owner repo.name prr).1.reason = "merge failed: " ++ e) ∧
    (∀ prr : PullRequestResult, isDependabotBranch prr.headBranch = true →
      c.postRebaseCommentFn owner repo.name prr.number = some e →
      (executeRebase c owner repo.name prr).1.action = actionRebaseFailed ∧
      (executeRebase c owner repo.name prr).1.reason = "failed to post rebase comment: " ++ e) ∧
    (∀ prr : PullRequestResult, isDependabotBranch prr.headBranch = false →
      c.updateBranchFn owner repo.name prr.number = some e →
      (executeRebase c owner repo.name prr).1.action = actionRebaseFailed ∧
      (executeRebase c owner repo.name prr).1.reason = "failed to update branch: " ++ e) ∧
    (∀ repos, c.listRepositoriesFn cfg.org = Except.ok repos →
      ∃ res, (Run c cfg).1 = Except.ok res) := by
  refine ⟨?_, ?_, ?_, ?_, ?_, ?_, ?_, ?_⟩
  · intro hm hmp
    simp [handleMergeReady, hm, hmp]
  · intro hsr hm hmp
    simp [handleOutdatedBranch, hsr, hm, hmp]
  · intro hsm hr hdep hpo
    simp [handleOutdatedBranch, hsm, hr, hdep, hpo]
  · intro hsm hr hdep hup
    simp [handleOutdatedBranch, hsm, hr, hdep, hup]
  · intro prr hmp
    simp [executeMerge, hmp]
  · intro prr hdep hpo
    simp [executeRebase, hdep, hpo]
  · intro prr hdep hup
    simp [executeRebase, hdep, hup]
  · intro repos hlist
    simp only [Run, discoverRepositories, hlist]
    exact ⟨_, rfl⟩

/-- Witness for `mutation_errors_isolated`: with a client whose mutations all
fail with "boom", each handler and executor converts the outcome to the
matching failure variant, and `Run` still returns a result. -/
theorem mutation_errors_isolated_witness :
    ((handleMergeReady wFailClient wCfgMerge "org1" wRepo wPR "all checks passing").1.action =
        actionMergeFailed ∧
     (handleMergeReady wFailClient wCfgMerge "org1" wRepo wPR "all checks passing").1.reason =
        "merge failed: boom") ∧
    ((handleOutdatedBranch wFailClient wCfgSkipRebase "org1" wRepo wPR
        { upToDate := false, behindBy := 5, hasConflict := false } "all checks passing").1.action =
        actionMergeFailed) ∧
    ((handleOutdatedBranch wFailClient wCfgRebaseOnly "org1" wRepo wPR
        { upToDate := false, behindBy := 5, hasConflict := false } "all checks passing").1.action =
        actionRebaseFailed) ∧
    ((handleOutdatedBranch wFailClient wCfgRebaseOnly "org1" wRepo wPR2
        { upToDate := false, behindBy := 5, hasConflict := false } "all checks passing").1.action =
        actionRebaseFailed) ∧
    ((executeMerge wFailClient "org1" wRepo.name { number := 7 }).1.action = actionMergeFailed) ∧
    ((executeRebase wFailClient "org1" wRepo.name
        { number := 7, headBranch := "dependabot/go/dep-1.2.3" }).1.action = actionRebaseFailed) ∧
    ((executeRebase wFailClient "org1" wRepo.name
        { number := 8, headBranch := "feature/x" }).1.action = actionRebaseFailed) ∧
    (∃ res, (Run wFailClient wCfgMerge).1 = Except.ok res) := by
  have h1 := mutation_errors_isolated wFailClient wCfgMerge "org1" wRepo wPR
    { upToDate := false, behindBy := 5, hasConflict := false } "all checks passing" "boom"
  have h2 := mutation_errors_isolated wFailClient wCfgSkipRebase "org1" wRepo wPR
    { upToDate := false, behindBy := 5, hasConflict := false } "all checks passing" "boom"
  have h3 := mutation_errors_isolated wFailClient wCfgRebaseOnly "org1" wRepo wPR
    { upToDate := false, behindBy := 5, hasConflict := false } "all checks passing" "boom"
  have h4 := mutation_errors_isolated wFailClient wCfgRebaseOnly "org1" wRepo wPR2
    { upToDate := false, behindBy := 5, hasConflict := false } "all checks passing" "boom"
  exact ⟨h1.1 rfl rfl,
    (h2.2.1 rfl rfl rfl).1,
    (h3.2.2.1 rfl rfl rfl rfl).1,
    (h4.2.2.2.1 rfl rfl (by decide) rfl).1,
    (h1.2.2.2.2.1 { number := 7 } rfl).1,
    (h1.2.2.2.2.2.1 { number := 7, headBranch := "dependabot/go/dep-1.2.3" } (by decide) rfl).1,
    (h1.2.2.2.2.2.2.1 { number := 8, headBranch := "feature/x" } (by decide) rfl).1,
    h1.2.2.2.2.2.2.2 [wRepo] rfl⟩

/-! ## C6: archived repositories are not filtered out (code bug) -/

/-- C6 (failing input): the current `discoverRepositories` applies no
`archived` filter, so a live listing containing an archived repository leads
`Run` to process and report it like any other repository, contrary to the
spec (and to the intent of the repository's own
`TestMergerSkipsArchivedRepos`, which only passes because the test mock
itself removes archived repositories before the merger sees them). -/
theorem archived_repo_not_filtered :
    ∃ res, (Run wArchClient wCfgAnalysis).1 = Except.ok res ∧
      res.repositories.length = 2 ∧
      ((res.repositories.map RepositoryResult.name).contains "archived-repo" = true) ∧
      (∀ rr ∈ res.repositories, rr.skipped = false) ∧
      res.summary.reposProcessed = 2 := by
  refine ⟨_, rfl, ?_, ?_, ?_, ?_⟩ <;> decide

/-! ## C2: a confirm-mode scan performs no mutating operation -/

/-- The trace of a scan evaluation is the check-status query alone or
followed by the branch-status query. -/
theorem evaluate_trace_cases (c : Client) (cfg : Config) (owner : String)
    (repo : Repository) (pr : PullRequest) :
    (evaluatePullRequest c cfg owner repo pr).2 = [Op.getCheckStatus owner repo.name pr.headSHA] ∨
    (evaluatePullRequest c cfg owner repo pr).2 =
      [Op.getCheckStatus owner repo.name pr.headSHA, Op.getBranchStatus owner repo.name pr.number] := by
  cases h1 : c.getCheckStatusFn owner repo.name pr.headSHA with
  | error e => simp [evaluatePullRequest, h1]
  | ok cs =>
    cases h2 : c.getBranchStatusFn owner repo.name pr.number with
    | error e =>
      simp only [evaluatePullRequest, h1, h2]
      split_ifs <;> simp
    | ok bs =>
      simp only [evaluatePullRequest, h1, h2]
      split_ifs <;> simp

/-- Every operation of a scan evaluation is read-only and addresses the
evaluated repository. -/
theorem evaluate_ops (c : Client) (cfg : Config) (owner : String)
    (repo : Repository) (pr : PullRequest) (op : Op)
    (hop : op ∈ (evaluatePullRequest c cfg owner repo pr).2) :
    op.isMutating = false ∧ op.targetRepo = some repo.name := by
  rcases evaluate_trace_cases c cfg owner repo pr with h | h <;> rw [h] at hop <;>
    simp only [List.mem_cons, List.mem_singleton, List.not_mem_nil, or_false] at hop
  · subst hop; exact ⟨rfl, rfl⟩
  · rcases hop with rfl | rfl <;> exact ⟨rfl, rfl⟩

/-- The PR-listing trace of `discoverPullRequests`. -/
theorem discoverPR_trace (c : Client) (cfg : Config) (repo : Repository) :
    (discoverPullRequests c cfg repo).2 =
      [Op.listPullRequests (ownerOf repo.fullName) repo.name repo.defaultBranch] := rfl

/-- Every operation of a confirm-mode repository scan is read-only and
addresses the scanned repository. -/
theorem scanOnly_ops (c : Client) (cfg : Config) (repo : Repository) (op : Op)
    (hop : op ∈ (processRepositoryScanOnly c cfg repo).2) :
    op.isMutating = false ∧ op.targetRepo = some repo.name := by
  unfold processRepositoryScanOnly at hop
  rw [discoverPR_trace] at hop
  cases hd : (discoverPullRequests c cfg repo).1 with
  | error e =>
    rw [hd] at hop
    simp only [List.mem_singleton] at hop
    subst hop; exact ⟨rfl, rfl⟩
  | ok prs =>
    rw [hd] at hop
    simp only [List.mem_append, List.mem_singleton, List.mem_flatMap] at hop
    rcases hop with rfl | ⟨pr, _, hop⟩
    · exact ⟨rfl, rfl⟩
    · exact evaluate_ops c cfg (ownerOf repo.fullName) repo pr op hop

/-- A scan evaluation never yields an already-executed (terminal) action. -/
theorem evaluate_not_terminal (c : Client) (cfg : Config) (owner : String)
    (repo : Repository) (pr : PullRequest) :
    isTerminalAction (evaluatePullRequest c cfg owner repo pr).1.action = false := by
  cases h1 : c.getCheckStatusFn owner repo.name pr.headSHA with
  | error e => simp only [evaluatePullRequest, h1]; rfl
  | ok cs =>
    cases h2 : c.getBranchStatusFn owner repo.name pr.number with
    | error e =>
      simp only [evaluatePullRequest, h1, h2]
      split_ifs <;> rfl
    | ok bs =>
      simp only [evaluatePullRequest, h1, h2]
      split_ifs <;> rfl

/-- Every PR entry of a confirm-mode repository scan bears a non-terminal action. -/
theorem scanOnly_prs_not_terminal (c : Client) (cfg : Config) (repo : Repository)
    (prr : PullRequestResult)
    (hprr : prr ∈ (processRepositoryScanOnly c cfg repo).1.pullRequests) :
    isTerminalAction prr.action = false := by
  unfold processRepositoryScanOnly at hprr
  cases hd : (discoverPullRequests c cfg repo).1 with
  | error e => rw [hd] at hprr; simp at hprr
  | ok prs =>
    rw [hd] at hprr
    simp only [List.mem_map] at hprr
    rcases hprr with ⟨pr, _, rfl⟩
    exact evaluate_not_terminal c cfg (ownerOf repo.fullName) repo pr

/-- Saturated repo-limit step: the repository is recorded as a limit skip and
no API call is made. -/
theorem runRepoStep_limit (c : Client) (cfg : Config) (st : RunState) (r : Repository)
    (hc : 0 < cfg.repoLimit ∧ cfg.repoLimit ≤ st.repoCount) :
    runRepoStep c cfg st r =
      ({ st with repositories := st.repositories ++ [limitSkipEntry r],
                 summary := { st.summary with reposSkipped := st.summary.reposSkipped + 1 } },
       []) := by
  simp [runRepoStep, hc]

/-- Below the repo limit, the step's trace is the dispatched processing trace. -/
theorem runRepoStep_trace (c : Client) (cfg : Config) (st : RunState) (r : Repository)
    (hc : ¬(0 < cfg.repoLimit ∧ cfg.repoLimit ≤ st.repoCount)) :
    (runRepoStep c cfg st r).2 = (processRepoDispatch c cfg r).2 := by
  simp only [runRepoStep, if_neg hc]

/-- Below the repo limit, the step appends the dispatched repository result. -/
theorem runRepoStep_repos (c : Client) (cfg : Config) (st : RunState) (r : Repository)
    (hc : ¬(0 < cfg.repoLimit ∧ cfg.repoLimit ≤ st.repoCount)) :
    (runRepoStep c cfg st r).1.repositories =
      st.repositories ++ [(processRepoDispatch c cfg r).1] := by
  simp only [runRepoStep, if_neg hc]
  split <;> rfl

/-- Confirm-mode invariant of the repository loop: traces stay read-only and
accumulated PR entries stay non-terminal. -/
theorem runLoop_confirm_inv (c : Client) (cfg : Config) (hconf : cfg.confirm = true) :
    ∀ (repos : List Repository) (st : RunState),
      (∀ rr ∈ st.repositories, ∀ prr ∈ rr.pullRequests, isTerminalAction prr.action = false) →
      (∀ rr ∈ (runLoop c cfg repos st).1.repositories, ∀ prr ∈ rr.pullRequests,
         isTerminalAction prr.action = false) ∧
      (∀ op ∈ (runLoop c cfg repos st).2, op.isMutating = false) := by
  intro repos
  induction repos with
  | nil =>
    intro st hst
    refine ⟨hst, ?_⟩
    intro op hop
    simp [runLoop] at hop
  | cons r rest ih =>
    intro st hst
    have hstep : (∀ rr ∈ (runRepoStep c cfg st r).1.repositories, ∀ prr ∈ rr.pullRequests,
        isTerminalAction prr.action = false) ∧
        (∀ op ∈ (runRepoStep c cfg st r).2, op.isMutating = false) := by
      by_cases hc : 0 < cfg.repoLimit ∧ cfg.repoLimit ≤ st.repoCount
      · constructor
        · intro rr hrr prr hprr
          rw [runRepoStep_limit c cfg st r hc] at hrr
          rcases List.mem_append.mp hrr with hrr | hrr
          · exact hst rr hrr prr hprr
          · rw [List.mem_singleton] at hrr
            subst hrr
            simp [limitSkipEntry] at hprr
        · intro op hop
          rw [runRepoStep_limit c cfg st r hc] at hop
          simp at hop
      · constructor
        · intro rr hrr prr hprr
          rw [runRepoStep_repos c cfg st r hc] at hrr
          rcases List.mem_append.mp hrr with hrr | hrr
          · exact hst rr hrr prr hprr
          · rw [List.mem_singleton] at hrr
            subst hrr
            have hd : (processRepoDispatch c cfg r).1 = (processRepositoryScanOnly c cfg r).1 := by
              simp [processRepoDispatch, hconf]
            rw [hd] at hprr
            exact scanOnly_prs_not_terminal c cfg r prr hprr
        · intro op hop
          rw [runRepoStep_trace c cfg st r hc] at hop
          have hd : (processRepoDispatch c cfg r).2 = (processRepositoryScanOnly c cfg r).2 := by
            simp [processRepoDispatch, hconf]
          rw [hd] at hop
          exact (scanOnly_ops c cfg r op hop).1
    have hrec := ih (runRepoStep c cfg st r).1 hstep.1
    refine ⟨hrec.1, ?_⟩
    intro op hop
    simp only [runLoop, List.mem_append] at hop
    rcases hop with hop | hop
    · exact hstep.2 op hop
    · exact hrec.2 op hop

/-- C2: with confirm mode enabled, `Run` performs only read-only collaborator
operations (never `MergePullRequest`, `UpdateBranch` or `PostRebaseComment`),
and every PR entry of the resulting scan bears a non-terminal action
(`would merge` / `would rebase` / `ready to merge` / a skip), never an
executed outcome. -/
theorem confirm_scan_never_mutates (c : Client) (cfg : Config)
    (hconf : cfg.confirm = true) :
    (∀ op ∈ (Run c cfg).2, op.isMutating = false) ∧
    (∀ res, (Run c cfg).1 = Except.ok res →
      ∀ rr ∈ res.repositories, ∀ prr ∈ rr.pullRequests,
        isTerminalAction prr.action = false) := by
  cases hl : (discoverRepositories c cfg).1 with
  | error e =>
    constructor
    · intro op hop
      simp only [Run, hl] at hop
      have ht : (discoverRepositories c cfg).2 = [Op.listRepositories cfg.org] := rfl
      rw [ht] at hop
      simp only [List.mem_singleton] at hop
      subst hop; rfl
    · intro res hres
      simp [Run, hl] at hres
  | ok repos =>
    have hinv := runLoop_confirm_inv c cfg hconf repos {} (by intro rr hrr; simp at hrr)
    constructor
    · intro op hop
      simp only [Run, hl] at hop
      have ht : (discoverRepositories c cfg).2 = [Op.listRepositories cfg.org] := rfl
      rw [ht] at hop
      simp only [List.cons_append, List.nil_append, List.mem_cons] at hop
      rcases hop with rfl | hop
      · rfl
      · exact hinv.2 op hop
    · intro res hres
      simp only [Run, hl, Except.ok.injEq] at hres
      subst hres
      exact hinv.1

/-- Witness for `confirm_scan_never_mutates` on a concrete two-PR
confirm-mode scan. -/
theorem confirm_scan_never_mutates_witness :
    (∀ op ∈ (Run wTwoPRClient wCfgRebaseOnlyConfirm).2, op.isMutating = false) ∧
    (∀ res, (Run wTwoPRClient wCfgRebaseOnlyConfirm).1 = Except.ok res →
      ∀ rr ∈ res.repositories, ∀ prr ∈ rr.pullRequests,
        isTerminalAction prr.action = false) :=
  confirm_scan_never_mutates wTwoPRClient wCfgRebaseOnlyConfirm rfl

/-! ## C3: execute replay is a frame over the scan result -/

/-- Pointwise `Forall₂` with the image of a map. -/
theorem forall₂_map_self {α β : Type} (R : α → β → Prop) (f : α → β) :
    ∀ (l : List α), (∀ x ∈ l, R x (f x)) → List.Forall₂ R l (l.map f) := by
  intro l
  induction l with
  | nil => intro _; exact List.Forall₂.nil
  | cons a t ih =>
    intro h
    rw [List.map_cons]
    exact List.Forall₂.cons (h a (List.mem_cons_self a t))
      (ih fun x hx => h x (List.mem_cons_of_mem a hx))

/-- An executed rebase terminates as rebased or rebase failed. -/
theorem executeRebase_action (c : Client) (o n : String) (pr : PullRequestResult) :
    (executeRebase c o n pr).1.action = actionRebased ∨
    (executeRebase c o n pr).1.action = actionRebaseFailed := by
  unfold executeRebase
  split_ifs with hdep
  · cases h : c.postRebaseCommentFn o n pr.number <;> simp [h]
  · cases h : c.updateBranchFn o n pr.number <;> simp [h]

/-- An executed merge terminates as merged or merge failed. -/
theorem executeMerge_action (c : Client) (o n : String) (pr : PullRequestResult) :
    (executeMerge c o n pr).1.action = actionMerged ∨
    (executeMerge c o n pr).1.action = actionMergeFailed := by
  unfold executeMerge
  cases h : c.mergePullRequestFn o n pr.number <;> simp [h]

/-- The trace of an executed rebase is a single write operation. -/
theorem executeRebase_trace (c : Client) (o n : String) (pr : PullRequestResult) :
    (executeRebase c o n pr).2 = [Op.postRebaseComment o n pr.number] ∨
    (executeRebase c o n pr).2 = [Op.updateBranch o n pr.number] := by
  unfold executeRebase
  split_ifs with hdep
  · cases h : c.postRebaseCommentFn o n pr.number <;> simp [h]
  · cases h : c.updateBranchFn o n pr.number <;> simp [h]

/-- The trace of an executed merge is the single merge operation. -/
theorem executeMerge_trace (c : Client) (o n : String) (pr : PullRequestResult) :
    (executeMerge c o n pr).2 = [Op.mergePullRequest o n pr.number] := by
  unfold executeMerge
  cases h : c.mergePullRequestFn o n pr.number <;> simp [h]

/-- Replaying one PR entry respects the frame relation. -/
theorem runActionStep_frame (c : Client) (o n : String) (pr : PullRequestResult) :
    PrFrame pr (runActionStep c o n pr).1 := by
  unfold runActionStep PrFrame
  split_ifs with h1 h2
  · have ha : pr.action = actionWouldRebase := by
      exact eq_of_beq h1
    refine ⟨?_, ?_, ?_⟩
    · intro hne
      exact absurd ha hne.2
    · intro hm
      rw [ha] at hm
      exact absurd hm (by decide)
    · intro _
      exact executeRebase_action c o n pr
  · have ha : pr.action = actionWouldMerge := by
      exact eq_of_beq h2
    refine ⟨?_, ?_, ?_⟩
    · intro hne
      exact absurd ha hne.1
    · intro _
      exact executeMerge_action c o n pr
    · intro hr
      rw [ha] at hr
      exact absurd hr (by decide)
  · refine ⟨fun _ => rfl, ?_, ?_⟩
    · intro hm
      exact absurd (beq_of_eq hm) h2
    · intro hr
      exact absurd (beq_of_eq hr) h1

/-- Every operation a replayed PR entry performs is a write. -/
theorem runActionStep_trace_mutating (c : Client) (o n : String) (pr : PullRequestResult)
    (op : Op) (hop : op ∈ (runActionStep c o n pr).2) : op.isMutating = true := by
  unfold runActionStep at hop
  split_ifs at hop with h1 h2
  · rcases executeRebase_trace c o n pr with h | h <;> rw [h] at hop <;>
      rw [List.mem_singleton] at hop <;> subst hop <;> rfl
  · rw [executeMerge_trace c o n pr, List.mem_singleton] at hop
    subst hop; rfl
  · simp at hop

/-- Replaying one repository entry respects the repository frame relation. -/
theorem execRepoActions_frame (c : Client) (rr : RepositoryResult)
    (hrr : rr.skipped = true → rr.pullRequests = []) :
    RepoFrame rr (execRepoActions c rr).1 := by
  by_cases hs : rr.skipped = true
  · have hres : (execRepoActions c rr).1 = rr := by
      simp [execRepoActions, hs]
    rw [hres]
    refine ⟨fun _ => rfl, rfl, rfl, rfl, rfl, rfl, ?_⟩
    rw [hrr hs]
    exact List.Forall₂.nil
  · have hs' : rr.skipped = false := by
      cases h : rr.skipped
      · rfl
      · exact absurd h hs
    have hres : (execRepoActions c rr).1 =
        { rr with pullRequests :=
            (rr.pullRequests.map fun pr => (runActionStep c (ownerOf rr.fullName) rr.name pr).1) } := by
      simp [execRepoActions, hs']
    rw [hres]
    refine ⟨fun h => absurd h hs, rfl, rfl, rfl, rfl, rfl, ?_⟩
    exact forall₂_map_self _ _ _
      (fun pr _ => runActionStep_frame c (ownerOf rr.fullName) rr.name pr)

/-- C3: replaying a scan result through `RunWithActions` leaves every entry
whose action was not a pending `would merge` / `would rebase` untouched
(including all skips and ready-but-merge-disabled entries), converts every
pending merge to merged / merge failed and every pending rebase to rebased /
rebase failed, preserves the repository-level structure, and performs only
write operations (so the evaluator's status queries are never re-invoked). -/
theorem execute_replay_frame (c : Client) (scan : RunResult)
    (hscan : ∀ rr ∈ scan.repositories, rr.skipped = true → rr.pullRequests = []) :
    List.Forall₂ RepoFrame scan.repositories (RunWithActions c scan).1.repositories ∧
    (∀ op ∈ (RunWithActions c scan).2, op.isMutating = true) := by
  constructor
  · have hrepos : (RunWithActions c scan).1.repositories =
        scan.repositories.map fun rr => (execRepoActions c rr).1 := rfl
    rw [hrepos]
    exact forall₂_map_self _ _ _ (fun rr hrr => execRepoActions_frame c rr (hscan rr hrr))
  · intro op hop
    have htr : (RunWithActions c scan).2 =
        scan.repositories.flatMap fun rr => (execRepoActions c rr).2 := rfl
    rw [htr] at hop
    rcases List.mem_flatMap.mp hop with ⟨rr, _, hop⟩
    by_cases hs : rr.skipped = true
    · simp [execRepoActions, hs] at hop
    · have hs' : rr.skipped = false := by
        cases h : rr.skipped
        · rfl
        · exact absurd h hs
      have htr2 : (execRepoActions c rr).2 =
          rr.pullRequests.flatMap fun pr =>
            (runActionStep c (ownerOf rr.fullName) rr.name pr).2 := by
        simp [execRepoActions, hs']
      rw [htr2] at hop
      rcases List.mem_flatMap.mp hop with ⟨pr, _, hop⟩
      exact runActionStep_trace_mutating c (ownerOf rr.fullName) rr.name pr op hop

/-- Witness for `execute_replay_frame` on a concrete scan result. -/
theorem execute_replay_frame_witness :
    List.Forall₂ RepoFrame wScanResult.repositories
      (RunWithActions wBehindClient wScanResult).1.repositories ∧
    (∀ op ∈ (RunWithActions wBehindClient wScanResult).2, op.isMutating = true) :=
  execute_replay_frame wBehindClient wScanResult (by decide)

/-! ## C7: the repository-count ceiling -/

/-- A successful PR listing makes `discoverPullRequests` return the filtered
candidates. -/
theorem discoverPR_ok (c : Client) (cfg : Config) (repo : Repository)
    (prs : List PullRequest)
    (hp : c.listPullRequestsFn (ownerOf repo.fullName) repo.name repo.defaultBranch =
      Except.ok prs) :
    (discoverPullRequests c cfg repo).1 =
      Except.ok (prs.filter fun pr =>
        !pr.draft && matchesBranchPattern pr.headBranch cfg.sourceBranch &&
          pr.baseBranch == repo.defaultBranch) := by
  simp [discoverPullRequests, hp]

/-- A repository whose PR listing succeeds is not marked skipped by the
confirm-mode scan. -/
theorem scanOnly_not_skipped (c : Client) (cfg : Config) (repo : Repository)
    (hok : listingOk c repo) :
    (processRepositoryScanOnly c cfg repo).1.skipped = false := by
  obtain ⟨prs, hp⟩ := hok
  unfold processRepositoryScanOnly
  rw [discoverPR_ok c cfg repo prs hp]

/-- A repository whose PR listing succeeds is not marked skipped by the
single-phase processing. -/
theorem processRepo_not_skipped (c : Client) (cfg : Config) (repo : Repository)
    (hok : listingOk c repo) :
    (processRepository c cfg repo).1.skipped = false := by
  obtain ⟨prs, hp⟩ := hok
  unfold processRepository
  rw [discoverPR_ok c cfg repo prs hp]

/-- A repository whose PR listing succeeds is not marked skipped, in either mode. -/
theorem dispatch_not_skipped (c : Client) (cfg : Config) (repo : Repository)
    (hok : listingOk c repo) :
    (processRepoDispatch c cfg repo).1.skipped = false := by
  unfold processRepoDispatch
  split_ifs
  · exact scanOnly_not_skipped c cfg repo hok
  · exact processRepo_not_skipped c cfg repo hok

/-- Operations of the single-phase branch-behind handler address the handled
repository. -/
theorem handleOutdatedBranch_ops (c : Client) (cfg : Config) (o : String)
    (repo : Repository) (pr : PullRequest) (bs : BranchStatus) (cst : String)
    (op : Op) (hop : op ∈ (handleOutdatedBranch c cfg o repo pr bs cst).2) :
    op.targetRepo = some repo.name := by
  unfold handleOutdatedBranch at hop
  split_ifs at hop with h1 h2 h3
  · cases h : c.mergePullRequestFn o repo.name pr.number <;> rw [h] at hop <;>
      simp only [List.mem_singleton] at hop <;> subst hop <;> rfl
  · simp at hop
  · cases h : c.postRebaseCommentFn o repo.name pr.number <;> rw [h] at hop <;>
      simp only [List.mem_singleton] at hop <;> subst hop <;> rfl
  · cases h : c.updateBranchFn o repo.name pr.number <;> rw [h] at hop <;>
      simp only [List.mem_singleton] at hop <;> subst hop <;> rfl

/-- Operations of the single-phase merge-ready handler address the handled
repository. -/
theorem handleMergeReady_ops (c : Client) (cfg : Config) (o : String)
    (repo : Repository) (pr : PullRequest) (cst : String)
    (op : Op) (hop : op ∈ (handleMergeReady c cfg o repo pr cst).2) :
    op.targetRepo = some repo.name := by
  unfold handleMergeReady at hop
  split_ifs at hop with h1
  · simp at hop
  · cases h : c.mergePullRequestFn o repo.name pr.number <;> rw [h] at hop <;>
      simp only [List.mem_singleton] at hop <;> subst hop <;> rfl

/-- Operations of the single-phase PR processing address the processed
repository. -/
theorem processPR_ops (c : Client) (cfg : Config) (o : String)
    (repo : Repository) (pr : PullRequest)
    (op : Op) (hop : op ∈ (processPullRequest c cfg o repo pr).2) :
    op.targetRepo = some repo.name := by
  cases h1 : c.getCheckStatusFn o repo.name pr.headSHA with
  | error e =>
    simp only [processPullRequest, h1, List.mem_singleton] at hop
    subst hop; rfl
  | ok cs =>
    cases h2 : c.getBranchStatusFn o repo.name pr.number with
    | error e =>
      simp only [processPullRequest, h1, h2] at hop
      split_ifs at hop <;> simp only [List.mem_singleton, List.cons_append, List.nil_append,
        List.mem_cons, List.not_mem_nil, or_false] at hop <;>
        first
        | (subst hop; rfl)
        | (rcases hop with rfl | rfl <;> rfl)
    | ok bs =>
      simp only [processPullRequest, h1, h2] at hop
      split_ifs at hop <;>
        simp only [List.mem_singleton, List.cons_append, List.nil_append, List.mem_cons,
          List.mem_append, List.not_mem_nil, or_false] at hop <;>
        first
          | (subst hop; rfl)
          | (rcases hop with rfl | rfl <;> rfl)
          | (rcases hop with rfl | rfl | hop <;>
              first
                | rfl
                | exact handleOutdatedBranch_ops c cfg o repo pr bs _ op hop
                | exact handleMergeReady_ops c cfg o repo pr _ op hop)

/-- Operations of the single-phase repository processing address the
processed repository. -/
theorem processRepo_ops (c : Client) (cfg : Config) (repo : Repository)
    (op : Op) (hop : op ∈ (processRepository c cfg repo).2) :
    op.targetRepo = some repo.name := by
  unfold processRepository at hop
  rw [discoverPR_trace] at hop
  cases hd : (discoverPullRequests c cfg repo).1 with
  | error e =>
    rw [hd] at hop
    simp only [List.mem_singleton] at hop
    subst hop; rfl
  | ok prs =>
    rw [hd] at hop
    simp only [List.mem_append, List.mem_singleton, List.mem_flatMap] at hop
    rcases hop with rfl | ⟨pr, _, hop⟩
    · rfl
    · exact processPR_ops c cfg (ownerOf repo.fullName) repo pr op hop

/-- Operations of the per-repository dispatch address the dispatched
repository, in either mode. -/
theorem dispatch_ops (c : Client) (cfg : Config) (repo : Repository)
    (op : Op) (hop : op ∈ (processRepoDispatch c cfg repo).2) :
    op.targetRepo = some repo.name := by
  unfold processRepoDispatch at hop
  split_ifs at hop
  · exact (scanOnly_ops c cfg repo op hop).2
  · exact processRepo_ops c cfg repo op hop

/-- The `skip:` prefix test rejects each non-skip action constant. -/
theorem isSkipAction_nonskip :
    isSkipAction actionMerged = false ∧ isSkipAction actionMergeFailed = false ∧
    isSkipAction actionRebased = false ∧ isSkipAction actionRebaseFailed = false ∧
    isSkipAction actionWouldMerge = false ∧ isSkipAction actionWouldRebase = false ∧
    isSkipAction actionReadyMerge = false := by decide

/-- Master accounting lemma for `updateSummary`: the repository-level
counters are untouched and each per-outcome counter advances by one exactly
when the entry bears the matching action. -/
theorem updateSummary_master (s : RunSummary) (prr : PullRequestResult) :
    (updateSummary s prr).reposProcessed = s.reposProcessed ∧
    (updateSummary s prr).reposSkipped = s.reposSkipped ∧
    (updateSummary s prr).candidatesFound = s.candidatesFound ∧
    (updateSummary s prr).mergedSuccess =
      s.mergedSuccess + (if prr.action == actionMerged then 1 else 0) ∧
    (updateSummary s prr).mergeFailed =
      s.mergeFailed + (if prr.action == actionMergeFailed then 1 else 0) ∧
    (updateSummary s prr).rebasedSuccess =
      s.rebasedSuccess + (if prr.action == actionRebased then 1 else 0) ∧
    (updateSummary s prr).rebaseFailed =
      s.rebaseFailed + (if prr.action == actionRebaseFailed then 1 else 0) ∧
    (updateSummary s prr).wouldMerge =
      s.wouldMerge + (if prr.action == actionWouldMerge then 1 else 0) ∧
    (updateSummary s prr).wouldRebase =
      s.wouldRebase + (if prr.action == actionWouldRebase then 1 else 0) ∧
    (updateSummary s prr).readyToMerge =
      s.readyToMerge + (if prr.action == actionReadyMerge then 1 else 0) ∧
    (updateSummary s prr).skipped =
      s.skipped + (if isSkipAction prr.action then 1 else 0) := by
  by_cases e1 : prr.action = actionMerged
  · unfold updateSummary
    rw [e1]
    exact ⟨rfl, rfl, rfl, rfl, rfl, rfl, rfl, rfl, rfl, rfl, rfl⟩
  by_cases e2 : prr.action = actionMergeFailed
  · unfold updateSummary
    rw [e2]
    exact ⟨rfl, rfl, rfl, rfl, rfl, rfl, rfl, rfl, rfl, rfl, rfl⟩
  by_cases e3 : prr.action = actionRebased
  · unfold updateSummary
    rw [e3]
    exact ⟨rfl, rfl, rfl, rfl, rfl, rfl, rfl, rfl, rfl, rfl, rfl⟩
  by_cases e4 : prr.action = actionRebaseFailed
  · unfold updateSummary
    rw [e4]
    exact ⟨rfl, rfl, rfl, rfl, rfl, rfl, rfl, rfl, rfl, rfl, rfl⟩
  by_cases e5 : prr.action = actionWouldMerge
  · unfold updateSummary
    rw [e5]
    exact ⟨rfl, rfl, rfl, rfl, rfl, rfl, rfl, rfl, rfl, rfl, rfl⟩
  by_cases e6 : prr.action = actionWouldRebase
  · unfold updateSummary
    rw [e6]
    exact ⟨rfl, rfl, rfl, rfl, rfl, rfl, rfl, rfl, rfl, rfl, rfl⟩
  by_cases e7 : prr.action = actionReadyMerge
  · unfold updateSummary
    rw [e7]
    exact ⟨rfl, rfl, rfl, rfl, rfl, rfl, rfl, rfl, rfl, rfl, rfl⟩
  have b1 : (prr.action == actionMerged) = false := by simp [e1]
  have b2 : (prr.action == actionMergeFailed) = false := by simp [e2]
  have b3 : (prr.action == actionRebased) = false := by simp [e3]
  have b4 : (prr.action == actionRebaseFailed) = false := by simp [e4]
  have b5 : (prr.action == actionWouldMerge) = false := by simp [e5]
  have b6 : (prr.action == actionWouldRebase) = false := by simp [e6]
  have b7 : (prr.action == actionReadyMerge) = false := by simp [e7]
  cases h8 : isSkipAction prr.action with
  | false =>
    unfold updateSummary
    rw [b1, b2, b3, b4, b5, b6, b7, h8]
    exact ⟨rfl, rfl, rfl, rfl, rfl, rfl, rfl, rfl, rfl, rfl, rfl⟩
  | true =>
    cases h9 : prr.skipReason != "" with
    | false =>
      unfold updateSummary
      rw [b1, b2, b3, b4, b5, b6, b7, h8, h9]
      exact ⟨rfl, rfl, rfl, rfl, rfl, rfl, rfl, rfl, rfl, rfl, rfl⟩
    | true =>
      unfold updateSummary
      rw [b1, b2, b3, b4, b5, b6, b7, h8, h9]
      exact ⟨rfl, rfl, rfl, rfl, rfl, rfl, rfl, rfl, rfl, rfl, rfl⟩

/-- Histogram accounting for `updateSummary`: at every nonempty key, the
skip histogram advances by one exactly when the entry is a skip categorized
under that key. -/
theorem updateSummary_hist (s : RunSummary) (prr : PullRequestResult)
    (r : String) (hr : r ≠ "") :
    (updateSummary s prr).skippedByReason r =
      s.skippedByReason r +
        (if isSkipAction prr.action && (prr.skipReason == r) then 1 else 0) := by
  by_cases e1 : prr.action = actionMerged
  · unfold updateSummary
    rw [e1]
    rfl
  by_cases e2 : prr.action = actionMergeFailed
  · unfold updateSummary
    rw [e2]
    rfl
  by_cases e3 : prr.action = actionRebased
  · unfold updateSummary
    rw [e3]
    rfl
  by_cases e4 : prr.action = actionRebaseFailed
  · unfold updateSummary
    rw [e4]
    rfl
  by_cases e5 : prr.action = actionWouldMerge
  · unfold updateSummary
    rw [e5]
    rfl
  by_cases e6 : prr.action = actionWouldRebase
  · unfold updateSummary
    rw [e6]
    rfl
  by_cases e7 : prr.action = actionReadyMerge
  · unfold updateSummary
    rw [e7]
    rfl
  have b1 : (prr.action == actionMerged) = false := by simp [e1]
  have b2 : (prr.action == actionMergeFailed) = false := by simp [e2]
  have b3 : (prr.action == actionRebased) = false := by simp [e3]
  have b4 : (prr.action == actionRebaseFailed) = false := by simp [e4]
  have b5 : (prr.action == actionWouldMerge) = false := by simp [e5]
  have b6 : (prr.action == actionWouldRebase) = false := by simp [e6]
  have b7 : (prr.action == actionReadyMerge) = false := by simp [e7]
  cases h8 : isSkipAction prr.action with
  | false =>
    unfold updateSummary
    rw [b1, b2, b3, b4, b5, b6, b7, h8]
    rfl
  | true =>
    cases h9 : prr.skipReason != "" with
    | false =>
      have hsr : prr.skipReason = "" := by
        simpa using h9
      have hc : (prr.skipReason == r) = false := by
        rw [hsr]
        simp [Ne.symm hr]
      unfold updateSummary
      rw [b1, b2, b3, b4, b5, b6, b7, h8, h9, hc]
      rfl
    | true =>
      by_cases hrr : r = prr.skipReason
      · have hc : (prr.skipReason == r) = true := by simp [hrr]
        have hc2 : (r == prr.skipReason) = true := by simp [hrr]
        unfold updateSummary
        rw [b1, b2, b3, b4, b5, b6, b7, h8, h9]
        simp [hc, hc2, hrr]
      · have hc : (prr.skipReason == r) = false := by simp [Ne.symm hrr]
        have hc2 : (r == prr.skipReason) = false := by simp [hrr]
        unfold updateSummary
        rw [b1, b2, b3, b4, b5, b6, b7, h8, h9]
        simp [hc, hc2, hrr]

/-- `updateSummary` never changes the repository-level counters. -/
theorem updateSummary_repos (s : RunSummary) (prr : PullRequestResult) :
    (updateSummary s prr).reposProcessed = s.reposProcessed ∧
    (updateSummary s prr).reposSkipped = s.reposSkipped :=
  ⟨(updateSummary_master s prr).1, (updateSummary_master s prr).2.1⟩

/-- The per-PR summary fold never changes the repository-level counters. -/
theorem foldl_runSummaryStep_repos (l : List PullRequestResult) :
    ∀ s : RunSummary,
      ((l.foldl runSummaryStep s).reposProcessed = s.reposProcessed ∧
       (l.foldl runSummaryStep s).reposSkipped = s.reposSkipped) := by
  induction l with
  | nil => intro s; exact ⟨rfl, rfl⟩
  | cons a t ih =>
    intro s
    rw [List.foldl_cons]
    have h1 := ih (runSummaryStep s a)
    have h2 := updateSummary_repos { s with candidatesFound := s.candidatesFound + 1 } a
    exact ⟨h1.1.trans h2.1, h1.2.trans h2.2⟩

/-- Below the repo limit, a successfully listed repository advances the
processed counter and the repo count and leaves the skipped counter alone. -/
theorem runRepoStep_state (c : Client) (cfg : Config) (st : RunState) (r : Repository)
    (hc : ¬(0 < cfg.repoLimit ∧ cfg.repoLimit ≤ st.repoCount))
    (hskip : (processRepoDispatch c cfg r).1.skipped = false) :
    (runRepoStep c cfg st r).1.summary.reposProcessed = st.summary.reposProcessed + 1 ∧
    (runRepoStep c cfg st r).1.summary.reposSkipped = st.summary.reposSkipped ∧
    (runRepoStep c cfg st r).1.repoCount = st.repoCount + 1 := by
  simp only [runRepoStep, if_neg hc, hskip, Bool.false_eq_true, if_false]
  refine ⟨?_, ?_, ?_⟩
  · exact (foldl_runSummaryStep_repos _ _).1
  · exact (foldl_runSummaryStep_repos _ _).2
  · trivial

/-- Closed form of the repository loop under a positive repo limit: with
`rem` slots left and every PR listing succeeding, the first `rem`
repositories are dispatched and every later one becomes a limit skip, with
no API call addressed to the skipped ones. -/
theorem runLoop_limit (c : Client) (cfg : Config) (hpos : 0 < cfg.repoLimit) :
    ∀ (repos : List Repository) (st : RunState) (rem : Nat),
      (∀ r ∈ repos, listingOk c r) →
      st.repoCount + (rem : Int) = cfg.repoLimit →
      ((runLoop c cfg repos st).1.repositories =
        st.repositories ++ ((repos.take rem).map fun r => (processRepoDispatch c cfg r).1)
          ++ (repos.drop rem).map limitSkipEntry) ∧
      (runLoop c cfg repos st).1.summary.reposProcessed =
        st.summary.reposProcessed + min rem repos.length ∧
      (runLoop c cfg repos st).1.summary.reposSkipped =
        st.summary.reposSkipped + (repos.length - min rem repos.length) ∧
      (∀ op ∈ (runLoop c cfg repos st).2, ∀ nm, op.targetRepo = some nm →
        nm ∈ (repos.take rem).map Repository.name) := by
  intro repos
  induction repos with
  | nil =>
    intro st rem hok hrem
    refine ⟨by simp [runLoop], by simp [runLoop], by simp [runLoop], ?_⟩
    intro op hop
    simp [runLoop] at hop
  | cons r rest ih =>
    intro st rem hok hrem
    have hok' : ∀ x ∈ rest, listingOk c x := fun x hx => hok x (List.mem_cons_of_mem r hx)
    have hcons1 : (runLoop c cfg (r :: rest) st).1 =
        (runLoop c cfg rest (runRepoStep c cfg st r).1).1 := rfl
    have hcons2 : (runLoop c cfg (r :: rest) st).2 =
        (runRepoStep c cfg st r).2 ++ (runLoop c cfg rest (runRepoStep c cfg st r).1).2 := rfl
    cases rem with
    | zero =>
      have hc : 0 < cfg.repoLimit ∧ cfg.repoLimit ≤ st.repoCount := ⟨hpos, by omega⟩
      have hstep := runRepoStep_limit c cfg st r hc
      have hrem' : (runRepoStep c cfg st r).1.repoCount + ((0 : Nat) : Int) = cfg.repoLimit := by
        rw [hstep]
        simpa using hrem
      have IH := ih (runRepoStep c cfg st r).1 0 hok' hrem'
      refine ⟨?_, ?_, ?_, ?_⟩
      · rw [hcons1, IH.1, hstep]
        simp
      · rw [hcons1, IH.2.1, hstep]
        simp
      · rw [hcons1, IH.2.2.1, hstep]
        simp only [List.take_zero, List.drop_zero, List.length_cons, Nat.zero_min]
        omega
      · intro op hop
        rw [hcons2] at hop
        rcases List.mem_append.mp hop with hop | hop
        · rw [hstep] at hop
          simp at hop
        · intro nm hnm
          have := IH.2.2.2 op hop nm hnm
          simp at this
    | succ k =>
      have hc : ¬(0 < cfg.repoLimit ∧ cfg.repoLimit ≤ st.repoCount) := by
        intro h
        omega
      have hokr : listingOk c r := hok r (List.mem_cons_self r rest)
      have hskip := dispatch_not_skipped c cfg r hokr
      have hstate := runRepoStep_state c cfg st r hc hskip
      have hrepos := runRepoStep_repos c cfg st r hc
      have htrace := runRepoStep_trace c cfg st r hc
      have hrem' : (runRepoStep c cfg st r).1.repoCount + ((k : Nat) : Int) = cfg.repoLimit := by
        rw [hstate.2.2]
        push_cast at hrem ⊢
        omega
      have IH := ih (runRepoStep c cfg st r).1 k hok' hrem'
      refine ⟨?_, ?_, ?_, ?_⟩
      · rw [hcons1, IH.1, hrepos, List.take_succ_cons, List.drop_succ_cons, List.map_cons]
        simp [List.append_assoc]
      · rw [hcons1, IH.2.1, hstate.1, List.length_cons, Nat.succ_min_succ]
        omega
      · rw [hcons1, IH.2.2.1, hstate.2.1, List.length_cons, Nat.succ_min_succ]
        omega
      · intro op hop
        rw [hcons2] at hop
        rcases List.mem_append.mp hop with hop | hop
        · rw [htrace] at hop
          intro nm hnm
          have htar := dispatch_ops c cfg r op hop
          rw [htar] at hnm
          have : r.name = nm := Option.some.inj hnm
          rw [List.take_succ_cons, List.map_cons, ← this]
          exact List.mem_cons_self _ _
        · intro nm hnm
          have := IH.2.2.2 op hop nm hnm
          rw [List.take_succ_cons, List.map_cons]
          exact List.mem_cons_of_mem _ this

/-- C7: with repo limit `N > 0`, `M > N` discovered repositories and
successful PR listings, `Run` processes exactly the first `N` repositories
in discovery order (their entries are not skipped), records the remaining
`M - N` as repository-level skips with reason "repo limit reached", counts
`N` processed and `M - N` skipped, and never addresses an API call to any
repository outside the first `N`. -/
theorem repo_limit_enforced (c : Client) (cfg : Config) (repos : List Repository) (N : Nat)
    (hlim : cfg.repoLimit = (N : Int)) (hN : 0 < N)
    (hdisc : (discoverRepositories c cfg).1 = Except.ok repos)
    (hM : N < repos.length)
    (hok : ∀ r ∈ repos, listingOk c r) :
    (∃ res, (Run c cfg).1 = Except.ok res ∧
      res.repositories = ((repos.take N).map fun r => (processRepoDispatch c cfg r).1)
        ++ (repos.drop N).map limitSkipEntry ∧
      (∀ rr ∈ ((repos.take N).map fun r => (processRepoDispatch c cfg r).1),
        rr.skipped = false) ∧
      (∀ rr ∈ (repos.drop N).map limitSkipEntry,
        rr.skipped = true ∧ rr.skipReason = "repo limit reached") ∧
      res.summary.reposProcessed = N ∧
      res.summary.reposSkipped = repos.length - N) ∧
    (∀ op ∈ (Run c cfg).2, ∀ nm, op.targetRepo = some nm →
      nm ∈ (repos.take N).map Repository.name) := by
  have hpos : 0 < cfg.repoLimit := by
    rw [hlim]
    exact_mod_cast hN
  have main := runLoop_limit c cfg hpos repos {} N hok (by simp [hlim])
  have hminN : min N repos.length = N := by omega
  have hrun : (Run c cfg).1 = Except.ok
      { repositories := (runLoop c cfg repos {}).1.repositories,
        summary := (runLoop c cfg repos {}).1.summary } := by
    simp only [Run, hdisc]
  constructor
  · refine ⟨_, hrun, ?_, ?_, ?_, ?_, ?_⟩
    · simpa using main.1
    · intro rr hrr
      rcases List.mem_map.mp hrr with ⟨x, hx, rfl⟩
      exact dispatch_not_skipped c cfg x (hok x (List.take_subset N repos hx))
    · intro rr hrr
      rcases List.mem_map.mp hrr with ⟨x, _, rfl⟩
      exact ⟨rfl, rfl⟩
    · have := main.2.1
      rw [hminN] at this
      simpa using this
    · have := main.2.2.1
      rw [hminN] at this
      simpa using this
  · intro op hop
    have htr : (Run c cfg).2 = [Op.listRepositories cfg.org] ++ (runLoop c cfg repos {}).2 := by
      simp only [Run, hdisc]
      rfl
    rw [htr] at hop
    rcases List.mem_append.mp hop with hop | hop
    · rw [List.mem_singleton] at hop
      subst hop
      intro nm hnm
      simp [Op.targetRepo] at hnm
    · exact main.2.2.2 op hop

/-- Witness for `repo_limit_enforced`: three listed repositories and a repo
limit of one. -/
theorem repo_limit_enforced_witness :
    (∃ res, (Run wThreeRepoClient wCfgLimitOne).1 = Except.ok res ∧
      res.repositories =
        ((([wRepoA, wRepoB, wRepoC].take 1).map
            fun r => (processRepoDispatch wThreeRepoClient wCfgLimitOne r).1)
          ++ ([wRepoA, wRepoB, wRepoC].drop 1).map limitSkipEntry) ∧
      (∀ rr ∈ (([wRepoA, wRepoB, wRepoC].take 1).map
          fun r => (processRepoDispatch wThreeRepoClient wCfgLimitOne r).1),
        rr.skipped = false) ∧
      (∀ rr ∈ ([wRepoA, wRepoB, wRepoC].drop 1).map limitSkipEntry,
        rr.skipped = true ∧ rr.skipReason = "repo limit reached") ∧
      res.summary.reposProcessed = 1 ∧
      res.summary.reposSkipped = [wRepoA, wRepoB, wRepoC].length - 1) ∧
    (∀ op ∈ (Run wThreeRepoClient wCfgLimitOne).2, ∀ nm, op.targetRepo = some nm →
      nm ∈ ([wRepoA, wRepoB, wRepoC].take 1).map Repository.name) :=
  repo_limit_enforced wThreeRepoClient wCfgLimitOne [wRepoA, wRepoB, wRepoC] 1
    rfl (by decide) rfl (by decide) (fun r _ => ⟨[], rfl⟩)

/-! ## C9: summary counters versus the PR entries -/

/-- Counting through a summary fold: a step that advances `f` exactly on
entries satisfying `g` makes the fold add the `g`-count of the list. -/
theorem foldl_step_count (step : RunSummary → PullRequestResult → RunSummary)
    (f : RunSummary → Nat) (g : PullRequestResult → Bool)
    (hstep : ∀ s prr, f (step s prr) = f s + (if g prr then 1 else 0)) :
    ∀ (l : List PullRequestResult) (s : RunSummary),
      f (l.foldl step s) = f s + l.countP g := by
  intro l
  induction l with
  | nil => intro s; simp
  | cons a t ih =>
    intro s
    rw [List.foldl_cons, ih, hstep, List.countP_cons]
    cases hg : g a <;> simp [hg] <;> omega

/-- Below the repo limit, the step's summary is the per-PR fold over the
dispatched result, seeded with the repository-level counter bump. -/
theorem runRepoStep_summary (c : Client) (cfg : Config) (st : RunState) (r : Repository)
    (hc : ¬(0 < cfg.repoLimit ∧ cfg.repoLimit ≤ st.repoCount)) :
    (runRepoStep c cfg st r).1.summary =
      ((processRepoDispatch c cfg r).1.pullRequests).foldl runSummaryStep
        (if (processRepoDispatch c cfg r).1.skipped then
          { st.summary with reposSkipped := st.summary.reposSkipped + 1 }
        else
          { st.summary with reposProcessed := st.summary.reposProcessed + 1 }) := by
  cases hs : (processRepoDispatch c cfg r).1.skipped with
  | false => simp [runRepoStep, if_neg hc, hs]
  | true => simp [runRepoStep, if_neg hc, hs]

/-- Counting invariant of the repository loop: any counter that
`updateSummary` advances exactly on `g`-entries ends up counting the
`g`-entries of all accumulated PR results. -/
theorem runLoop_count (c : Client) (cfg : Config)
    (f : RunSummary → Nat) (g : PullRequestResult → Bool)
    (hstep : ∀ s prr, f (updateSummary s prr) = f s + (if g prr then 1 else 0))
    (hcf : ∀ (s : RunSummary) (n : Nat), f { s with candidatesFound := n } = f s)
    (hrp : ∀ (s : RunSummary) (n : Nat), f { s with reposProcessed := n } = f s)
    (hrs : ∀ (s : RunSummary) (n : Nat), f { s with reposSkipped := n } = f s) :
    ∀ (repos : List Repository) (st : RunState) (A : Nat),
      f st.summary = A + (st.repositories.flatMap RepositoryResult.pullRequests).countP g →
      f (runLoop c cfg repos st).1.summary =
        A + ((runLoop c cfg repos st).1.repositories.flatMap
              RepositoryResult.pullRequests).countP g := by
  have hstep2 : ∀ (s : RunSummary) (prr : PullRequestResult),
      f (runSummaryStep s prr) = f s + (if g prr then 1 else 0) := by
    intro s prr
    unfold runSummaryStep
    rw [hstep, hcf]
  intro repos
  induction repos with
  | nil => intro st A hinv; exact hinv
  | cons r rest ih =>
    intro st A hinv
    have hcons1 : (runLoop c cfg (r :: rest) st).1 =
        (runLoop c cfg rest (runRepoStep c cfg st r).1).1 := rfl
    rw [hcons1]
    refine ih (runRepoStep c cfg st r).1 A ?_
    by_cases hc : 0 < cfg.repoLimit ∧ cfg.repoLimit ≤ st.repoCount
    · rw [runRepoStep_limit c cfg st r hc]
      simp only [limitSkipEntry, List.flatMap_append, List.countP_append]
      rw [hrs]
      simpa using hinv
    · rw [runRepoStep_summary c cfg st r hc, runRepoStep_repos c cfg st r hc]
      rw [foldl_step_count runSummaryStep f g hstep2]
      simp only [List.flatMap_append, List.countP_append]
      cases hs : (processRepoDispatch c cfg r).1.skipped with
      | false =>
        simp only [hs, Bool.false_eq_true, if_false]
        rw [hrp, hinv]
        simp
        omega
      | true =>
        simp only [hs, if_true]
        rw [hrs, hinv]
        simp
        omega

/-- Counting through the replay fold of `RunWithActions`, given that skipped
repositories carry no PR entries. -/
theorem foldl_repos_count (f : RunSummary → Nat) (g : PullRequestResult → Bool)
    (hstep : ∀ s prr, f (updateSummary s prr) = f s + (if g prr then 1 else 0)) :
    ∀ (rs : List RepositoryResult) (s : RunSummary),
      (∀ rr ∈ rs, rr.skipped = true → rr.pullRequests = []) →
      f (rs.foldl (fun s repo =>
          if repo.skipped then s else repo.pullRequests.foldl updateSummary s) s) =
        f s + (rs.flatMap RepositoryResult.pullRequests).countP g := by
  intro rs
  induction rs with
  | nil => intro s _; simp
  | cons rr rest ih =>
    intro s hsk
    have hrest : ∀ x ∈ rest, x.skipped = true → x.pullRequests = [] :=
      fun x hx => hsk x (List.mem_cons_of_mem rr hx)
    rw [List.foldl_cons]
    by_cases hs : rr.skipped = true
    · rw [if_pos hs, ih s hrest]
      simp [hsk rr (List.mem_cons_self rr rest) hs]
    · have hs' : rr.skipped = false := by
        cases h : rr.skipped
        · rfl
        · exact absurd h hs
      rw [hs', if_neg (by simp), ih _ hrest,
        foldl_step_count updateSummary f g hstep]
      simp only [List.flatMap_cons, List.countP_append]
      omega

/-- Replayed repository entries still carry no PRs when skipped. -/
theorem execRepo_skipped_empty (c : Client) (scan : RunResult)
    (hscan : ∀ rr ∈ scan.repositories, rr.skipped = true → rr.pullRequests = []) :
    ∀ rr' ∈ scan.repositories.map (fun rr => (execRepoActions c rr).1),
      rr'.skipped = true → rr'.pullRequests = [] := by
  intro rr' hmem hsk
  rcases List.mem_map.mp hmem with ⟨rr, hrr, rfl⟩
  by_cases hs : rr.skipped = true
  · have heq : (execRepoActions c rr).1 = rr := by simp [execRepoActions, hs]
    rw [heq]
    exact hscan rr hrr hs
  · have hs' : rr.skipped = false := by
      cases h : rr.skipped
      · rfl
      · exact absurd h hs
    have heq : (execRepoActions c rr).1.skipped = false := by
      simp [execRepoActions, hs']
    rw [heq] at hsk
    cases hsk

/-- C9 (amended): in every `RunResult` returned by `Run`, each summary
counter (including `ReadyToMerge`) equals the number of PR entries bearing
the matching outcome and the skip histogram counts each skip entry once
under its categorized reason; in every `RunResult` returned by
`RunWithActions` the same holds for every counter except `ReadyToMerge`,
which is not reset before re-aggregation and therefore equals its value in
the input scan result plus the number of ready-to-merge entries. -/
theorem summary_counters_match (c : Client) (cfg : Config) (scan : RunResult)
    (hscan : ∀ rr ∈ scan.repositories, rr.skipped = true → rr.pullRequests = []) :
    (∀ res, (Run c cfg).1 = Except.ok res →
      countersMatch res ∧ res.summary.readyToMerge = countAction res actionReadyMerge) ∧
    (countersMatch (RunWithActions c scan).1 ∧
      (RunWithActions c scan).1.summary.readyToMerge =
        scan.summary.readyToMerge +
          countAction (RunWithActions c scan).1 actionReadyMerge) := by
  constructor
  · intro res hres
    cases hd : (discoverRepositories c cfg).1 with
    | error e => simp [Run, hd] at hres
    | ok repos =>
      simp only [Run, hd, Except.ok.injEq] at hres
      subst hres
      have base : ∀ (f : RunSummary → Nat) (g : PullRequestResult → Bool),
          (∀ s prr, f (updateSummary s prr) = f s + (if g prr then 1 else 0)) →
          (∀ (s : RunSummary) (n : Nat), f { s with candidatesFound := n } = f s) →
          (∀ (s : RunSummary) (n : Nat), f { s with reposProcessed := n } = f s) →
          (∀ (s : RunSummary) (n : Nat), f { s with reposSkipped := n } = f s) →
          f ({} : RunSummary) = 0 →
          f (runLoop c cfg repos {}).1.summary =
            ((runLoop c cfg repos {}).1.repositories.flatMap
              RepositoryResult.pullRequests).countP g := by
        intro f g hstep hcf hrp hrs hzero
        have := runLoop_count c cfg f g hstep hcf hrp hrs repos {} 0 (by simpa using hzero)
        simpa using this
      refine ⟨⟨?_, ?_, ?_, ?_, ?_, ?_, ?_, ?_⟩, ?_⟩
      · exact base (fun s => s.mergedSuccess) (fun prr => prr.action == actionMerged)
          (fun s prr => (updateSummary_master s prr).2.2.2.1)
          (fun _ _ => rfl) (fun _ _ => rfl) (fun _ _ => rfl) rfl
      · exact base (fun s => s.mergeFailed) (fun prr => prr.action == actionMergeFailed)
          (fun s prr => (updateSummary_master s prr).2.2.2.2.1)
          (fun _ _ => rfl) (fun _ _ => rfl) (fun _ _ => rfl) rfl
      · exact base (fun s => s.rebasedSuccess) (fun prr => prr.action == actionRebased)
          (fun s prr => (updateSummary_master s prr).2.2.2.2.2.1)
          (fun _ _ => rfl) (fun _ _ => rfl) (fun _ _ => rfl) rfl
      · exact base (fun s => s.rebaseFailed) (fun prr => prr.action == actionRebaseFailed)
          (fun s prr => (updateSummary_master s prr).2.2.2.2.2.2.1)
          (fun _ _ => rfl) (fun _ _ => rfl) (fun _ _ => rfl) rfl
      · exact base (fun s => s.wouldMerge) (fun prr => prr.action == actionWouldMerge)
          (fun s prr => (updateSummary_master s prr).2.2.2.2.2.2.2.1)
          (fun _ _ => rfl) (fun _ _ => rfl) (fun _ _ => rfl) rfl
      · exact base (fun s => s.wouldRebase) (fun prr => prr.action == actionWouldRebase)
          (fun s prr => (updateSummary_master s prr).2.2.2.2.2.2.2.2.1)
          (fun _ _ => rfl) (fun _ _ => rfl) (fun _ _ => rfl) rfl
      · exact base (fun s => s.skipped) (fun prr => isSkipAction prr.action)
          (fun s prr => (updateSummary_master s prr).2.2.2.2.2.2.2.2.2.2)
          (fun _ _ => rfl) (fun _ _ => rfl) (fun _ _ => rfl) rfl
      · intro r hr
        exact base (fun s => s.skippedByReason r)
          (fun prr => isSkipAction prr.action && (prr.skipReason == r))
          (fun s prr => updateSummary_hist s prr r hr)
          (fun _ _ => rfl) (fun _ _ => rfl) (fun _ _ => rfl) rfl
      · exact base (fun s => s.readyToMerge) (fun prr => prr.action == actionReadyMerge)
          (fun s prr => (updateSummary_master s prr).2.2.2.2.2.2.2.2.2.1)
          (fun _ _ => rfl) (fun _ _ => rfl) (fun _ _ => rfl) rfl
  · have hmap := execRepo_skipped_empty c scan hscan
    have base : ∀ (f : RunSummary → Nat) (g : PullRequestResult → Bool),
        (∀ s prr, f (updateSummary s prr) = f s + (if g prr then 1 else 0)) →
        f (RunWithActions c scan).1.summary =
          f { scan.summary with
                mergedSuccess := 0
                mergeFailed := 0
                rebasedSuccess := 0
                rebaseFailed := 0
                wouldMerge := 0
                wouldRebase := 0
                skipped := 0
                skippedByReason := (fun _ => 0) } +
            ((RunWithActions c scan).1.repositories.flatMap
              RepositoryResult.pullRequests).countP g := by
      intro f g hstep
      exact foldl_repos_count f g hstep
        (scan.repositories.map fun rr => (execRepoActions c rr).1) _ hmap
    refine ⟨⟨?_, ?_, ?_, ?_, ?_, ?_, ?_, ?_⟩, ?_⟩
    · simpa [countAction, allPRResults] using
        base (fun s => s.mergedSuccess) (fun prr => prr.action == actionMerged)
          (fun s prr => (updateSummary_master s prr).2.2.2.1)
    · simpa [countAction, allPRResults] using
        base (fun s => s.mergeFailed) (fun prr => prr.action == actionMergeFailed)
          (fun s prr => (updateSummary_master s prr).2.2.2.2.1)
    · simpa [countAction, allPRResults] using
        base (fun s => s.rebasedSuccess) (fun prr => prr.action == actionRebased)
          (fun s prr => (updateSummary_master s prr).2.2.2.2.2.1)
    · simpa [countAction, allPRResults] using
        base (fun s => s.rebaseFailed) (fun prr => prr.action == actionRebaseFailed)
          (fun s prr => (updateSummary_master s prr).2.2.2.2.2.2.1)
    · simpa [countAction, allPRResults] using
        base (fun s => s.wouldMerge) (fun prr => prr.action == actionWouldMerge)
          (fun s prr => (updateSummary_master s prr).2.2.2.2.2.2.2.1)
    · simpa [countAction, allPRResults] using
        base (fun s => s.wouldRebase) (fun prr => prr.action == actionWouldRebase)
          (fun s prr => (updateSummary_master s prr).2.2.2.2.2.2.2.2.1)
    · simpa [countSkipEntries, allPRResults] using
        base (fun s => s.skipped) (fun prr => isSkipAction prr.action)
          (fun s prr => (updateSummary_master s prr).2.2.2.2.2.2.2.2.2.2)
    · intro r hr
      simpa [countSkipWithReason, allPRResults] using
        base (fun s => s.skippedByReason r)
          (fun prr => isSkipAction prr.action && (prr.skipReason == r))
          (fun s prr => updateSummary_hist s prr r hr)
    · simpa [countAction, allPRResults] using
        base (fun s => s.readyToMerge) (fun prr => prr.action == actionReadyMerge)
          (fun s prr => (updateSummary_master s prr).2.2.2.2.2.2.2.2.2.1)

/-- C9 counterexample (claim as stated): on a concrete rebase-only
confirm-mode scan producing one `ready to merge` entry (counted once) and
one pending rebase, the replayed result of `RunWithActions` keeps the old
`ReadyToMerge` value and re-counts the entry, so the counter reads 2 while
exactly one PR entry bears the ready-to-merge outcome. -/
theorem ready_to_merge_double_counted :
    ∃ scan, (Run wTwoPRClient wCfgRebaseOnlyConfirm).1 = Except.ok scan ∧
      scan.summary.readyToMerge = 1 ∧
      countAction (RunWithActions wTwoPRClient scan).1 actionReadyMerge = 1 ∧
      (RunWithActions wTwoPRClient scan).1.summary.readyToMerge = 2 ∧
      (RunWithActions wTwoPRClient scan).1.summary.readyToMerge ≠
        countAction (RunWithActions wTwoPRClient scan).1 actionReadyMerge := by
  refine ⟨_, rfl, ?_, ?_, ?_, ?_⟩ <;> decide

/-- Witness for `summary_counters_match` on a concrete client,
configuration and scan result. -/
theorem summary_counters_match_witness :
    (∀ res, (Run wTwoPRClient wCfgRebaseOnlyConfirm).1 = Except.ok res →
      countersMatch res ∧ res.summary.readyToMerge = countAction res actionReadyMerge) ∧
    (countersMatch (RunWithActions wTwoPRClient wScanResult).1 ∧
      (RunWithActions wTwoPRClient wScanResult).1.summary.readyToMerge =
        wScanResult.summary.readyToMerge +
          countAction (RunWithActions wTwoPRClient wScanResult).1 actionReadyMerge) :=
  summary_counters_match wTwoPRClient wCfgRebaseOnlyConfirm wScanResult (by decide)

end Ghprmerge
